import Mathlib

/-!
# Bridge-Attendance: verification of the core pipeline

Shallow embedding of the Bridge-Attendance worker's core components:

* the OCR-result Normalizer (`validateOcrResult`, `normalizeSeat` from
  `src/ocr/claude-vision.ts`),
* the store query layer (`src/db/queries.ts`) over an explicit database
  state, with the schema's uniqueness and CHECK constraints
  (`schema.sql`) modelled inside the insert primitives,
* the HTTP handlers for confirm (`src/api/confirm.ts`), single
  attendance (`src/api/attendance.ts`), scan (`src/api/scan.ts`),
  direct mailing-list add (`src/api/mailing-list.ts`) and roster
  (`src/api/events.ts`).

JavaScript dynamic values are modelled by an inductive `Json` type;
JavaScript exceptions (TypeError on property access of null, calling
`.map`/`.trim` on a value that lacks it) are modelled with
`Except String`.  The JavaScript string methods `.trim()`,
`.toUpperCase()` and `.toLowerCase()` are modelled by structurally
recursive functions over the character list of a `String` (the inputs of
interest are ASCII).  Store-level constraint violations are modelled
with a structured `DbErr` so that the handlers'
`message.includes('UNIQUE constraint')` test becomes the `DbErr.unique`
discriminant.
-/

namespace BridgeAttendance

/-- Model of JavaScript `String.prototype.toUpperCase` (ASCII). -/
def strToUpper (s : String) : String := ⟨s.data.map Char.toUpper⟩

/-- Model of JavaScript `String.prototype.toLowerCase` (ASCII). -/
def strToLower (s : String) : String := ⟨s.data.map Char.toLower⟩

/-- Drop leading whitespace from a character list. -/
def trimLeading (l : List Char) : List Char := l.dropWhile Char.isWhitespace

/-- Model of JavaScript `String.prototype.trim`: drop leading and
trailing whitespace. -/
def strTrim (s : String) : String :=
  ⟨(trimLeading (trimLeading s.data.reverse).reverse)⟩

/-- A parsed JSON value (the output of `JSON.parse`). -/
inductive Json where
  | null : Json
  | bool : Bool → Json
  | num  : ℚ → Json
  | str  : String → Json
  | arr  : List Json → Json
  | obj  : List (String × Json) → Json

namespace Json

/-- JavaScript property access `v.k`.  Returns `none` for the JS value
`undefined` (absent key, or base value that has no such property);
throws a TypeError when the base is `null`, as JS does. -/
def getField : Json → String → Except String (Option Json)
  | Json.null, k => .error ("TypeError: Cannot read properties of null (reading '" ++ k ++ "')")
  | Json.obj kvs, k => .ok ((kvs.find? (fun p => p.1 = k)).map Prod.snd)
  | _, _ => .ok none

/-- JavaScript nullish coalescing `x ?? d` applied to a possibly-undefined
value: `undefined` (`none`) and `null` both fall back to the default. -/
def nullish : Option Json → Json → Json
  | none, d => d
  | some Json.null, d => d
  | some v, _ => v

/-- Is this value a JSON string? -/
def isStr : Json → Bool
  | Json.str _ => true
  | _ => false

end Json

/-- JavaScript `.trim()` on a value that may not be a string: throws a
TypeError otherwise. -/
def jsTrim : Json → Except String String
  | Json.str s => .ok (strTrim s)
  | _ => .error "TypeError: trim is not a function"

-- ===========================================================================
-- Normalizer (src/worker/src/ocr/claude-vision.ts)
-- ===========================================================================

/-- Canonical attendance entry produced by the Normalizer.  `is_checked`
is passed through untouched by the source, so it stays a `Json`. -/
structure OcrAttendanceEntry where
  name : String
  table_number : Option ℚ
  seat : Option String
  is_checked : Json
  confidence : ℚ

/-- Canonical mailing-list entry produced by the Normalizer. -/
structure OcrMailingListEntry where
  name : String
  email : String
  confidence : ℚ
deriving DecidableEq

/-- Canonical extraction result (Normalizer output / OcrJob result).
`qr_data` and `notes` are passed through untouched by the source, so
they stay `Json`. -/
structure OcrResult where
  qr_data : Json
  form_type : String
  attendance : List OcrAttendanceEntry
  mailing_list : List OcrMailingListEntry
  confidence : ℚ
  notes : Json

/-- `normalizeSeat` from `claude-vision.ts`: non-strings map to null;
strings are trimmed and upper-cased, full compass words map to their
single letter, single letters pass through, anything else maps to null. -/
def normalizeSeat (seat : Json) : Option String :=
  match seat with
  | Json.str s =>
      let upper := strToUpper (strTrim s)
      if upper = "NORTH" then some "N"
      else if upper = "SOUTH" then some "S"
      else if upper = "EAST" then some "E"
      else if upper = "WEST" then some "W"
      else if ["N", "S", "E", "W"].contains upper then some upper
      else none
  | _ => none

/-- One element of the `attendance` array in `validateOcrResult`'s map:
`name` is `(entry.name ?? '').trim()` (a TypeError when the defaulted
value is not a string, or when the entry itself is null), `table_number`
is kept only when a number, `seat` is normalized, `is_checked` and
`confidence` follow the source. -/
def validateAttendanceEntry (entry : Json) : Except String OcrAttendanceEntry := do
  let nameField ← entry.getField "name"
  let name ← jsTrim (Json.nullish nameField (Json.str ""))
  let tnField ← entry.getField "table_number"
  let table_number : Option ℚ := match tnField with
    | some (Json.num q) => some q
    | _ => none
  let seatField ← entry.getField "seat"
  let seat := normalizeSeat (Json.nullish seatField Json.null)
  let checkedField ← entry.getField "is_checked"
  let is_checked := Json.nullish checkedField Json.null
  let confField ← entry.getField "confidence"
  let confidence : ℚ := match confField with
    | some (Json.num q) => q
    | _ => 1/2
  pure { name, table_number, seat, is_checked, confidence }

/-- One element of the `mailing_list` array in `validateOcrResult`'s map:
`name` trimmed, `email` trimmed and lower-cased, `confidence` as in the
source. -/
def validateMailingEntry (entry : Json) : Except String OcrMailingListEntry := do
  let nameField ← entry.getField "name"
  let name ← jsTrim (Json.nullish nameField (Json.str ""))
  let emailField ← entry.getField "email"
  let email ← jsTrim (Json.nullish emailField (Json.str ""))
  let confField ← entry.getField "confidence"
  let confidence : ℚ := match confField with
    | some (Json.num q) => q
    | _ => 1/2
  pure { name, email := strToLower email, confidence }

/-- JavaScript `.map` over a value that must be an array (`(x ?? []).map`):
throws a TypeError on any non-array. -/
def jsMapArray (v : Json) (f : Json → Except String α) : Except String (List α) :=
  match v with
  | Json.arr l => l.mapM f
  | _ => .error "TypeError: map is not a function"

/-- `validateOcrResult` from `claude-vision.ts`: best-effort coercion of a
parsed JSON value into the canonical extraction shape.  Field accesses and
the `.map`/`.trim` calls follow JavaScript semantics, so some mistyped
inputs throw (modelled as `Except.error`). -/
def validateOcrResult (raw : Json) : Except String OcrResult := do
  let qrField ← raw.getField "qr_data"
  let qr_data := Json.nullish qrField Json.null
  let ftField ← raw.getField "form_type"
  let form_type : String :=
    match ftField with
    | some (Json.str s) => if s = "roster" then "roster" else "blank"
    | _ => "blank"
  let attField ← raw.getField "attendance"
  let attendanceRaw ← jsMapArray (Json.nullish attField (Json.arr [])) validateAttendanceEntry
  let attendance := attendanceRaw.filter (fun e => e.name.length > 0)
  let mlField ← raw.getField "mailing_list"
  let mailingRaw ← jsMapArray (Json.nullish mlField (Json.arr [])) validateMailingEntry
  let mailing_list := mailingRaw.filter (fun e => e.name.length > 0 && e.email.length > 0)
  let confField ← raw.getField "confidence"
  let confidence : ℚ := match confField with
    | some (Json.num q) => q
    | _ => 1/2
  let notesField ← raw.getField "notes"
  let notes := Json.nullish notesField (Json.str "")
  pure { qr_data, form_type, attendance, mailing_list, confidence, notes }

/-- Whether an `Except` computation succeeded. -/
def exceptOk : Except ε α → Bool
  | .ok _ => true
  | .error _ => false

-- ===========================================================================
-- Store model (schema.sql, members.sql) and query layer (src/db/queries.ts)
-- ===========================================================================

/-- Row of `events` (volatile `created_at` omitted; no modelled behavior
reads it). -/
structure EventRow where
  id : String
  name : String
  date : String
  teacher : String
  location : String
  type : String
deriving DecidableEq

/-- Row of `students`. -/
structure StudentRow where
  id : String
  name : String
  email : Option String
  first_event_id : Option String
deriving DecidableEq

/-- Row of `attendance`. -/
structure AttendanceRow where
  id : String
  event_id : String
  student_id : String
  table_number : Option Int
  seat : Option String
  source : String
deriving DecidableEq

/-- Row of `mailing_list`. -/
structure MailingListRow where
  id : String
  name : String
  email : String
  event_id : Option String
deriving DecidableEq

/-- Row of `members` (`declined` is the 0/1 flag, modelled as `Bool`). -/
structure MemberRow where
  id : String
  name : String
  email : String
  joined_date : Option String
  declined : Bool
deriving DecidableEq

/-- Row of `ocr_jobs`.  `result_json` stores a serialized canonical
result; it is modelled structurally as the result itself. -/
structure OcrJobRow where
  id : String
  event_id : String
  r2_key : String
  status : String
  result : Option OcrResult
  error_message : Option String

/-- The relational store.  Lists model tables in rowid order (inserts
append, `SELECT ... WHERE` without `ORDER BY` scans in that order).
`nextId` drives `generateId`/`crypto.randomUUID`, which is modelled as
an arbitrary injection from a freshness counter into strings. -/
structure Db where
  events : List EventRow
  students : List StudentRow
  attendance : List AttendanceRow
  mailing_list : List MailingListRow
  members : List MemberRow
  ocr_jobs : List OcrJobRow
  nextId : Nat

/-- Model of `generateId` (`crypto.randomUUID()` in `utils/id.ts`): an
injection from the freshness counter into strings. -/
def generateId (n : Nat) : String := ⟨'u' :: List.replicate n 'x'⟩

/-- A store-level constraint violation, surfaced to JS as an `Error`
whose message names the constraint; the handlers discriminate on
`message.includes('UNIQUE constraint')`, which is the `unique`
constructor here. -/
inductive DbErr where
  | unique (detail : String)
  | check (detail : String)
deriving DecidableEq

/-- `getEventById`: `SELECT * FROM events WHERE id = ?` (first match). -/
def getEventById (db : Db) (id : String) : Option EventRow :=
  db.events.find? (fun e => e.id = id)

/-- `getStudentByName`: `SELECT * FROM students WHERE name = ?` —
exact, case-sensitive string equality. -/
def getStudentByName (db : Db) (name : String) : Option StudentRow :=
  db.students.find? (fun s => s.name = name)

/-- `insertStudent`: appends a fresh-id row. -/
def insertStudent (db : Db) (name : String) (email : Option String)
    (first_event_id : Option String) : Db × StudentRow :=
  let s : StudentRow := { id := generateId db.nextId, name, email, first_event_id }
  ({ db with students := db.students ++ [s], nextId := db.nextId + 1 }, s)

/-- `getOrCreateStudentByName`: look up by exact name; create on miss
with `first_event_id` set to the originating event. -/
def getOrCreateStudentByName (db : Db) (name : String) (eventId : String) :
    Db × StudentRow :=
  match getStudentByName db name with
  | some s => (db, s)
  | none => insertStudent db name none (some eventId)

/-- An `attendance` row joined with its student, as produced by
`getEventWithAttendance`'s `JOIN students`. -/
structure AttendanceWithStudent where
  row : AttendanceRow
  student_name : String
  student_email : Option String

/-- `getEventWithAttendance`: the event plus its attendance rows joined
against `students` (rows whose `student_id` has no student are dropped
by the inner join; the `ORDER BY table_number, seat` is irrelevant to
every modelled consumer and is omitted). -/
def getEventWithAttendance (db : Db) (id : String) :
    Option (EventRow × List AttendanceWithStudent) :=
  match getEventById db id with
  | none => none
  | some e =>
      some (e, (db.attendance.filter (fun a => a.event_id = id)).filterMap
        (fun a => (db.students.find? (fun s => s.id = a.student_id)).map
          (fun s => ⟨a, s.name, s.email⟩)))

/-- The schema's `CHECK(seat IS NULL OR seat IN ('N','S','E','W'))`. -/
def seatCheckOk (seat : Option String) : Bool :=
  match seat with
  | none => true
  | some s => ["N", "S", "E", "W"].contains s

/-- The schema's `CHECK(source IN ('ocr','manual','online'))`. -/
def sourceCheckOk (src : String) : Bool :=
  ["ocr", "manual", "online"].contains src

/-- `recordAttendance`: `INSERT INTO attendance ...` under the schema's
constraints — `CHECK(seat IS NULL OR seat IN ('N','S','E','W'))`,
`CHECK(source IN ('ocr','manual','online'))`, and
`UNIQUE(event_id, student_id)`. -/
def recordAttendance (db : Db) (event_id student_id : String)
    (table_number : Option Int) (seat : Option String) (source : Option String) :
    Except DbErr (Db × AttendanceRow) :=
  let src := source.getD "manual"
  if sourceCheckOk src = false then
    .error (.check "attendance.source")
  else if seatCheckOk seat = false then
    .error (.check "attendance.seat")
  else if db.attendance.any (fun a => a.event_id = event_id && a.student_id = student_id) then
    .error (.unique "attendance.event_id, attendance.student_id")
  else
    let row : AttendanceRow :=
      { id := generateId db.nextId, event_id, student_id, table_number, seat, source := src }
    .ok ({ db with attendance := db.attendance ++ [row], nextId := db.nextId + 1 }, row)

/-- `getMailingListByEmail`: `SELECT * FROM mailing_list WHERE email = ?`
— exact string equality on the stored email. -/
def getMailingListByEmail (db : Db) (email : String) : Option MailingListRow :=
  db.mailing_list.find? (fun r => r.email = email)

/-- `addMailingListEntry`: `INSERT INTO mailing_list ...` under the
schema's `UNIQUE(email)` constraint (byte-exact, as in SQLite). -/
def addMailingListEntry (db : Db) (name email : String) (event_id : Option String) :
    Except DbErr (Db × MailingListRow) :=
  if db.mailing_list.any (fun r => r.email = email) then
    .error (.unique "mailing_list.email")
  else
    let row : MailingListRow := { id := generateId db.nextId, name, email, event_id }
    .ok ({ db with mailing_list := db.mailing_list ++ [row], nextId := db.nextId + 1 }, row)

/-- `insertOcrJob`: new job row with the schema's default
`status = 'pending'`. -/
def insertOcrJob (db : Db) (event_id r2_key : String) : Db × OcrJobRow :=
  let row : OcrJobRow :=
    { id := generateId db.nextId, event_id, r2_key, status := "pending",
      result := none, error_message := none }
  ({ db with ocr_jobs := db.ocr_jobs ++ [row], nextId := db.nextId + 1 }, row)

/-- `getOcrJobById`. -/
def getOcrJobById (db : Db) (id : String) : Option OcrJobRow :=
  db.ocr_jobs.find? (fun j => j.id = id)

/-- `updateOcrJobProcessing`: `UPDATE ocr_jobs SET status='processing'`. -/
def updateOcrJobProcessing (db : Db) (id : String) : Db :=
  let jobs := db.ocr_jobs.map (fun j => if j.id = id then { j with status := "processing" } else j)
  { db with ocr_jobs := jobs }

/-- `updateOcrJobComplete`: store the result, set `status='complete'`. -/
def updateOcrJobComplete (db : Db) (id : String) (result : OcrResult) : Db :=
  let jobs := db.ocr_jobs.map
    (fun j => if j.id = id then { j with status := "complete", result := some result } else j)
  { db with ocr_jobs := jobs }

/-- `updateOcrJobFailed`: store the error message, set `status='failed'`. -/
def updateOcrJobFailed (db : Db) (id : String) (errorMessage : String) : Db :=
  let jobs := db.ocr_jobs.map
    (fun j => if j.id = id then { j with status := "failed", error_message := some errorMessage } else j)
  { db with ocr_jobs := jobs }

/-- One row of the roster query's result set. -/
structure RosterRow where
  student_id : String
  student_name : String
  is_member : Nat
  declined : Nat
  events_attended : Nat
deriving DecidableEq

/-- Modelled from the spec: `getRosterForClass` is called by
`GET /api/events/:id/roster` in `src/api/events.ts` but its definition is
not among the provided sources.  Per the spec (§4.6), the roster for a
class name is the distinct set of students who have ever attended any
event sharing that event name, each joined against `members` by
case-insensitive exact name match (`LOWER(s.name) = LOWER(m.name)`, as in
the sibling query `findNonMembers`), with 0/1 flags `is_member` and
`declined` (0 when there is no matching member) and the count of
attendance rows in such events. -/
def getRosterForClass (db : Db) (className : String) : List RosterRow :=
  let inClass (a : AttendanceRow) : Bool :=
    db.events.any (fun e => e.id = a.event_id && e.name = className)
  let attended (s : StudentRow) : Bool :=
    db.attendance.any (fun a => a.student_id = s.id && inClass a)
  (db.students.filter attended).map (fun s =>
    let m := db.members.find? (fun m => strToLower m.name = strToLower s.name)
    { student_id := s.id
      student_name := s.name
      is_member := if m.isSome then 1 else 0
      declined := match m with
        | some mem => if mem.declined then 1 else 0
        | none => 0
      events_attended := (db.attendance.filter (fun a => a.student_id = s.id && inClass a)).length })

-- ===========================================================================
-- HTTP handlers
-- ===========================================================================

/-- An error response produced by a handler: either a thrown `AppError`
(`src/errors.ts`, carrying HTTP status and code) or an uncaught
store-level error. -/
inductive ApiErr where
  | appError (status : Nat) (code : String) (msg : String)
  | dbError (e : DbErr)
deriving DecidableEq

/-- `notFound` from `src/errors.ts`. -/
def notFound (resource id : String) : ApiErr :=
  .appError 404 "NOT_FOUND" (resource ++ " with ID " ++ id ++ " not found")

/-- `badRequest` from `src/errors.ts`. -/
def badRequest (msg : String) : ApiErr := .appError 400 "BAD_REQUEST" msg

/-- `conflict` from `src/errors.ts`. -/
def conflict (msg : String) : ApiErr := .appError 409 "CONFLICT" msg

/-- One element of `ConfirmOcrBody.attendance` (`src/types.ts`): an
absent `student_name` is modelled as the empty string, which the handler
treats identically (both are falsy after `?.trim()`). -/
structure ConfirmAttendanceEntry where
  student_name : String
  table_number : Option Int
  seat : Option String
deriving DecidableEq

/-- One element of `ConfirmOcrBody.mailing_list` (`src/types.ts`). -/
structure ConfirmMailingEntry where
  name : String
  email : String
deriving DecidableEq

/-- `ConfirmOcrBody` (`src/types.ts`); both fields are arrays, so the
handler's `Array.isArray` bad-request guards cannot fire here. -/
structure ConfirmOcrBody where
  attendance : List ConfirmAttendanceEntry
  mailing_list : List ConfirmMailingEntry
deriving DecidableEq

/-- One element of the confirm response's per-entry attendance report. -/
structure EntryResult where
  student_name : String
  student_id : String
  status : String
deriving DecidableEq

/-- One element of the confirm response's per-entry mailing-list report. -/
structure MailingResult where
  name : String
  email : String
  status : String
deriving DecidableEq

/-- The confirm loop's duplicate check:
`existing?.attendance.some((a) => a.student_id === student.id)` over
`getEventWithAttendance` (undefined short-circuits to falsy). -/
def alreadyRecordedCheck (db : Db) (eventId studentId : String) : Bool :=
  match getEventWithAttendance db eventId with
  | some (_, att) => att.any (fun a => a.row.student_id = studentId)
  | none => false

/-- One iteration of the confirm handler's attendance loop
(`src/api/confirm.ts` lines 27–48): skip silently on empty trimmed name,
resolve-or-create the student with the trimmed name, skip when already
recorded, otherwise insert with `source: 'ocr'`.  The insert is not
wrapped in a try/catch, so a store-level rejection propagates. -/
def confirmAttendanceStep (eventId : String) (acc : Db × List EntryResult)
    (entry : ConfirmAttendanceEntry) : Except DbErr (Db × List EntryResult) :=
  if strTrim entry.student_name = "" then .ok (acc.1, acc.2)
  else
    let r := getOrCreateStudentByName acc.1 (strTrim entry.student_name) eventId
    if alreadyRecordedCheck r.1 eventId r.2.id then
      .ok (r.1, acc.2 ++ [⟨entry.student_name, r.2.id, "skipped"⟩])
    else
      match recordAttendance r.1 eventId r.2.id entry.table_number entry.seat (some "ocr") with
      | .ok out => .ok (out.1, acc.2 ++ [⟨entry.student_name, r.2.id, "created"⟩])
      | .error e => .error e

/-- One iteration of the confirm handler's mailing-list loop
(`src/api/confirm.ts` lines 53–69): skip silently when the trimmed name
or email is empty, dedup on the trimmed lower-cased email, first write
wins. -/
def confirmMailingStep (eventId : String) (acc : Db × List MailingResult)
    (entry : ConfirmMailingEntry) : Except DbErr (Db × List MailingResult) :=
  if strTrim entry.name = "" || strTrim entry.email = "" then .ok (acc.1, acc.2)
  else
    let email := strToLower (strTrim entry.email)
    match getMailingListByEmail acc.1 email with
    | some _ => .ok (acc.1, acc.2 ++ [⟨entry.name, email, "skipped"⟩])
    | none =>
        match addMailingListEntry acc.1 (strTrim entry.name) email (some eventId) with
        | .ok out => .ok (out.1, acc.2 ++ [⟨entry.name, email, "created"⟩])
        | .error e => .error e

/-- The confirm response body (`src/api/confirm.ts` lines 71–84). -/
structure ConfirmResponse where
  attendance_created : Nat
  attendance_skipped : Nat
  attendance_results : List EntryResult
  mailing_created : Nat
  mailing_skipped : Nat
  mailing_results : List MailingResult
deriving DecidableEq

/-- `POST /api/events/:id/confirm` (`src/api/confirm.ts`). -/
def postConfirm (db : Db) (eventId : String) (body : ConfirmOcrBody) :
    Except ApiErr (Db × ConfirmResponse) := do
  if (getEventById db eventId).isNone then throw (notFound "Event" eventId)
  let attOut ← (body.attendance.foldlM (confirmAttendanceStep eventId) (db, [])).mapError ApiErr.dbError
  let mlOut ← (body.mailing_list.foldlM (confirmMailingStep eventId) (attOut.1, [])).mapError ApiErr.dbError
  pure (mlOut.1,
    { attendance_created := (attOut.2.filter (fun r => r.status = "created")).length
      attendance_skipped := (attOut.2.filter (fun r => r.status = "skipped")).length
      attendance_results := attOut.2
      mailing_created := (mlOut.2.filter (fun r => r.status = "created")).length
      mailing_skipped := (mlOut.2.filter (fun r => r.status = "skipped")).length
      mailing_results := mlOut.2 })

/-- `RecordAttendanceBody` (`src/types.ts`); an absent `student_name` is
modelled as the empty string (both falsy), an absent `seat`/`source` as
`none`. -/
structure RecordAttendanceBody where
  student_name : String
  table_number : Option Int
  seat : Option String
  source : Option String
deriving DecidableEq

/-- `POST /api/events/:id/attendance` (`src/api/attendance.ts`): the
direct single-attendance endpoint.  Its `recordAttendance` call is
wrapped in a try/catch that maps a message containing
`'UNIQUE constraint'` to a 409 Conflict and rethrows anything else. -/
def postAttendance (db : Db) (eventId : String) (body : RecordAttendanceBody) :
    Except ApiErr (Db × AttendanceRow) := do
  if body.student_name = "" then throw (badRequest "student_name is required")
  match body.seat with
  | some s =>
      if s ≠ "" ∧ (["N", "S", "E", "W"].contains s) = false then
        throw (badRequest "seat must be N, S, E, or W")
  | none => pure ()
  if (getEventById db eventId).isNone then throw (notFound "Event" eventId)
  let (db1, student) := getOrCreateStudentByName db body.student_name eventId
  match recordAttendance db1 eventId student.id body.table_number body.seat body.source with
  | .ok out => pure out
  | .error (.unique _) =>
      throw (conflict (body.student_name ++ " is already recorded for this event"))
  | .error e => throw (.dbError e)

/-- One iteration of the confirm attendance loop in the interleaving of
§5 of the spec: a concurrent confirm for the same pair commits its
insert after this request's existence check (which runs against `db`)
and before this request's `recordAttendance` (which therefore runs
against `db` extended with the racer's row `racerRow`).  The loop body
is the one of `confirmAttendanceStep`; only the store state seen by the
insert differs. -/
def confirmAttendanceStepRaced (eventId : String) (db : Db)
    (racerRow : AttendanceRow) (entry : ConfirmAttendanceEntry) :
    Except DbErr (Db × List EntryResult) :=
  if strTrim entry.student_name = "" then .ok (db, [])
  else
    let r := getOrCreateStudentByName db (strTrim entry.student_name) eventId
    if alreadyRecordedCheck r.1 eventId r.2.id then
      .ok (r.1, [⟨entry.student_name, r.2.id, "skipped"⟩])
    else
      let db1r := { r.1 with attendance := r.1.attendance ++ [racerRow] }
      match recordAttendance db1r eventId r.2.id entry.table_number entry.seat (some "ocr") with
      | .ok out => .ok (out.1, [⟨entry.student_name, r.2.id, "created"⟩])
      | .error e => .error e

/-- The scan response body (`src/api/scan.ts`). -/
structure ScanResponse where
  ocr_job_id : String
  r2_key : String
  status : String
  result : Option OcrResult
  error : Option String

/-- `POST /api/events/:id/scan` (`src/api/scan.ts`) from the point where
the request parses: `photos` is the R2 bucket's key set, `r2Key` the
generated object key, and `vision` the outcome of
`processAttendanceSheet` (normalized result, or the thrown error's
message).  The api-key, content-type and size guards concern request
transport and are modelled as passed.  Both branches return `pure`,
i.e. an HTTP-success JSON response. -/
def postScan (db : Db) (photos : List String) (eventId : String) (r2Key : String)
    (vision : Except String OcrResult) :
    Except ApiErr (Db × List String × ScanResponse) := do
  if (getEventById db eventId).isNone then throw (notFound "Event" eventId)
  let photos1 := photos ++ [r2Key]
  let (db1, job) := insertOcrJob db eventId r2Key
  let db2 := updateOcrJobProcessing db1 job.id
  match vision with
  | .ok result =>
      let db3 := updateOcrJobComplete db2 job.id result
      pure (db3, photos1,
        { ocr_job_id := job.id, r2_key := r2Key, status := "complete",
          result := some result, error := none })
  | .error msg =>
      let db3 := updateOcrJobFailed db2 job.id msg
      pure (db3, photos1,
        { ocr_job_id := job.id, r2_key := r2Key, status := "failed",
          result := none, error := some msg })

/-- `AddMailingListBody` (`src/types.ts`); absent fields modelled as the
falsy empty string / `none`. -/
structure AddMailingListBody where
  name : String
  email : String
  event_id : Option String
deriving DecidableEq

/-- `POST /api/mailing-list` (`src/api/mailing-list.ts`): the direct add.
The duplicate check and the insert both use the raw, unnormalized email
and name from the request body. -/
def postMailingList (db : Db) (body : AddMailingListBody) :
    Except ApiErr (Db × MailingListRow) := do
  if body.name = "" then throw (badRequest "name is required")
  if body.email = "" then throw (badRequest "email is required")
  if (getMailingListByEmail db body.email).isSome then
    throw (conflict ("Email " ++ body.email ++ " is already on the mailing list"))
  (addMailingListEntry db body.name body.email body.event_id).mapError ApiErr.dbError

/-- One student of the roster response (`src/api/events.ts` lines 68–74). -/
structure RosterStudent where
  student_id : String
  name : String
  is_member : Bool
  declined : Bool
  needs_mailing_list : Bool
  events_attended : Nat
deriving DecidableEq

/-- The roster response body (`src/api/events.ts` lines 76–85). -/
structure RosterResponse where
  class_name : String
  teacher : String
  total_students : Nat
  needs_mailing_list : Nat
  students : List RosterStudent
deriving DecidableEq

/-- The per-row mapping in the roster handler (`src/api/events.ts`
lines 68–74): `needs_mailing_list := is_member === 0 && declined === 0`. -/
def rosterStudentOfRow (r : RosterRow) : RosterStudent :=
  { student_id := r.student_id
    name := r.student_name
    is_member := r.is_member = 1
    declined := r.declined = 1
    needs_mailing_list := r.is_member = 0 && r.declined = 0
    events_attended := r.events_attended }

/-- `GET /api/events/:id/roster` (`src/api/events.ts`): looks up the
event, queries the roster for the event's *name*, and maps the 0/1
flags via `rosterStudentOfRow`. -/
def getRoster (db : Db) (eventId : String) : Except ApiErr RosterResponse := do
  let event ← match getEventById db eventId with
    | some e => pure e
    | none => throw (notFound "Event" eventId)
  let students := (getRosterForClass db event.name).map rosterStudentOfRow
  pure
    { class_name := event.name
      teacher := event.teacher
      total_students := students.length
      needs_mailing_list := (students.filter (fun s => s.needs_mailing_list)).length
      students }

end BridgeAttendance

-- ===========================================================================
-- Derived predicates and views used by the verification
-- ===========================================================================

namespace BridgeAttendance

/-- Total property access for non-null bases (`undefined` as `none`);
agrees with `Json.getField` away from null. -/
def Json.getFieldD : Json → String → Option Json
  | Json.obj kvs, k => (kvs.find? (fun p => p.1 = k)).map Prod.snd
  | _, _ => none

/-- An attendance-array element on which the normalizer's entry mapper
does not throw: a non-null value whose `name` field, after the `?? ''`
default, is a string. -/
def attEntryOk (e : Json) : Bool :=
  match e with
  | Json.null => false
  | _ => (Json.nullish (e.getFieldD "name") (Json.str "")).isStr

/-- A mailing-list-array element on which the normalizer's entry mapper
does not throw. -/
def mlEntryOk (e : Json) : Bool :=
  match e with
  | Json.null => false
  | _ => (Json.nullish (e.getFieldD "name") (Json.str "")).isStr
      && (Json.nullish (e.getFieldD "email") (Json.str "")).isStr

/-- Is the value an array all of whose elements satisfy `p`? -/
def arrAllOk (v : Json) (p : Json → Bool) : Bool :=
  match v with
  | Json.arr l => l.all p
  | _ => false

/-- The shapes on which `validateOcrResult` does not throw: the value is
not null, and `attendance` / `mailing_list` (after the `?? []` defaults)
are arrays of well-shaped entries. -/
def wellShaped (raw : Json) : Bool :=
  match raw with
  | Json.null => false
  | _ => arrAllOk (Json.nullish (raw.getFieldD "attendance") (Json.arr [])) attEntryOk
      && arrAllOk (Json.nullish (raw.getFieldD "mailing_list") (Json.arr [])) mlEntryOk

/-- The trimmed name an input attendance entry contributes. -/
def inputAttName (e : Json) : String :=
  match Json.nullish (e.getFieldD "name") (Json.str "") with
  | Json.str s => strTrim s
  | _ => ""

/-- The trimmed name an input mailing-list entry contributes. -/
def inputMlName (e : Json) : String :=
  match Json.nullish (e.getFieldD "name") (Json.str "") with
  | Json.str s => strTrim s
  | _ => ""

/-- The normalized email an input mailing-list entry contributes. -/
def inputMlEmail (e : Json) : String :=
  match Json.nullish (e.getFieldD "email") (Json.str "") with
  | Json.str s => strToLower (strTrim s)
  | _ => ""

/-- `db'` extends `db`: same events, students and attendance only
appended.  What a confirm attendance step does to the store. -/
def dbGrows (db db' : Db) : Prop :=
  db'.events = db.events ∧
  (∃ ext, db'.students = db.students ++ ext) ∧
  (∃ ext, db'.attendance = db.attendance ++ ext)

/-- The name of a confirm entry has been committed: the student the
resolver finds for it has an attendance row for this event. -/
def entryDone (db : Db) (eid n : String) : Prop :=
  ∃ s, getStudentByName db n = some s ∧
    ∃ a ∈ db.attendance, a.event_id = eid ∧ a.student_id = s.id

/-- The confirm attendance loop processes exactly the entries with a
non-empty trimmed name. -/
def hasName (e : ConfirmAttendanceEntry) : Bool := strTrim e.student_name != ""

end BridgeAttendance

-- ===========================================================================
-- Concrete fixtures used by witnesses and counterexamples
-- ===========================================================================

namespace BridgeAttendance

/-- A concrete event. -/
def evT : EventRow :=
  { id := "EV000001", name := "Tuesday Beginner", date := "2025-01-07",
    teacher := "Rick", location := "", type := "face_to_face" }

/-- A store holding just the event `evT`. -/
def db0 : Db :=
  { events := [evT], students := [], attendance := [], mailing_list := [],
    members := [], ocr_jobs := [], nextId := 0 }

/-- `db0` plus a student named Bob. -/
def dbBob : Db :=
  { db0 with students := [{ id := "u", name := "Bob", email := none, first_event_id := some "EV000001" }] }

/-- An attendance row for Bob committed by a concurrent request. -/
def bobRow : AttendanceRow :=
  { id := "racer", event_id := "EV000001", student_id := "u",
    table_number := none, seat := none, source := "ocr" }

/-- A confirm entry naming Bob. -/
def entryBob : ConfirmAttendanceEntry :=
  { student_name := "Bob", table_number := none, seat := none }

/-- A one-entry confirm body naming Bob (with valid table and seat). -/
def bodyBob : ConfirmOcrBody :=
  { attendance := [{ student_name := " Bob ", table_number := some 1, seat := some "N" }],
    mailing_list := [] }

/-- `db0` plus a student Alice Johnson who attended `evT`, and a member
row `alice johnson`. -/
def dbAlice : Db :=
  { db0 with
    students := [{ id := "sa", name := "Alice Johnson", email := none, first_event_id := some "EV000001" }],
    attendance := [{ id := "a1", event_id := "EV000001", student_id := "sa",
                     table_number := none, seat := none, source := "ocr" }],
    members := [{ id := "m1", name := "alice johnson", email := "aj@x.com",
                  joined_date := none, declined := false }] }

-- ===========================================================================
-- Shared helper lemmas
-- ===========================================================================

theorem getOrCreate_found (db : Db) (name eventId : String)
    (h : ∃ s ∈ db.students, s.name = name) :
    ∃ t, getOrCreateStudentByName db name eventId = (db, t) ∧ t ∈ db.students ∧ t.name = name := by
  have hsome : (db.students.find? (fun s => s.name = name)).isSome = true := by
    rw [List.find?_isSome]
    obtain ⟨s, hs, hn⟩ := h
    exact ⟨s, hs, by simp [hn]⟩
  obtain ⟨t, ht⟩ := Option.isSome_iff_exists.mp hsome
  refine ⟨t, ?_, List.mem_of_find?_eq_some ht, by simpa using List.find?_some ht⟩
  simp [getOrCreateStudentByName, getStudentByName, ht]

theorem getOrCreate_miss (db : Db) (name eventId : String)
    (h : ∀ s ∈ db.students, s.name ≠ name) :
    getOrCreateStudentByName db name eventId =
      ({ db with students := db.students ++ [⟨generateId db.nextId, name, none, some eventId⟩],
                 nextId := db.nextId + 1 },
       ⟨generateId db.nextId, name, none, some eventId⟩) := by
  have hnone : db.students.find? (fun s => s.name = name) = none := by
    rw [List.find?_eq_none]
    intro s hs
    simp [h s hs]
  simp [getOrCreateStudentByName, getStudentByName, hnone, insertStudent]

/-- `getOrCreateStudentByName` only ever appends to the student table
and touches nothing else. -/
theorem getOrCreate_state (db : Db) (name eventId : String) :
    ∃ ext, (getOrCreateStudentByName db name eventId).1 =
      { db with students := db.students ++ ext,
                nextId := db.nextId + ext.length } := by
  unfold getOrCreateStudentByName
  cases hf : getStudentByName db name with
  | some s => exact ⟨[], by simp⟩
  | none => exact ⟨[⟨generateId db.nextId, name, none, some eventId⟩], by simp [insertStudent]⟩

/-- Anatomy of a successful `recordAttendance`: the returned row and the
state change, and the fact that the constraints passed. -/
theorem recordAttendance_ok {db : Db} {eid sid : String} {tn : Option Int}
    {seat : Option String} {src : Option String} {out : Db × AttendanceRow}
    (h : recordAttendance db eid sid tn seat src = .ok out) :
    out.2 = ⟨generateId db.nextId, eid, sid, tn, seat, src.getD "manual"⟩ ∧
    out.1 = { db with attendance := db.attendance ++ [out.2], nextId := db.nextId + 1 } ∧
    sourceCheckOk (src.getD "manual") = true ∧ seatCheckOk seat = true ∧
    db.attendance.any (fun a => a.event_id = eid && a.student_id = sid) = false := by
  unfold recordAttendance at h
  by_cases h1 : sourceCheckOk (src.getD "manual") = false
  · rw [if_pos h1] at h
    exact Except.noConfusion h
  · rw [if_neg h1] at h
    by_cases h2 : seatCheckOk seat = false
    · rw [if_pos h2] at h
      exact Except.noConfusion h
    · rw [if_neg h2] at h
      by_cases h3 : db.attendance.any (fun a => a.event_id = eid && a.student_id = sid) = true
      · rw [if_pos h3] at h
        exact Except.noConfusion h
      · rw [if_neg h3] at h
        cases h
        exact ⟨rfl, rfl, Bool.not_eq_false _ |>.mp h1, Bool.not_eq_false _ |>.mp h2,
               Bool.not_eq_true _ |>.mp h3⟩

/-- `recordAttendance` succeeds when the source and seat pass their CHECK
constraints and the (event, student) pair is not yet present. -/
theorem recordAttendance_succeeds (db : Db) (eid sid : String) (tn : Option Int)
    (seat : Option String) (src : Option String)
    (h1 : sourceCheckOk (src.getD "manual") = true)
    (h2 : seatCheckOk seat = true)
    (h3 : db.attendance.any (fun a => a.event_id = eid && a.student_id = sid) = false) :
    recordAttendance db eid sid tn seat src =
      .ok ({ db with
              attendance := db.attendance ++ [⟨generateId db.nextId, eid, sid, tn, seat, src.getD "manual"⟩],
              nextId := db.nextId + 1 },
           ⟨generateId db.nextId, eid, sid, tn, seat, src.getD "manual"⟩) := by
  unfold recordAttendance
  rw [if_neg (by simp [h1]), if_neg (by simp [h2]), if_neg (by simp [h3])]

end BridgeAttendance

-- ===========================================================================
-- Claims
-- ===========================================================================

namespace BridgeAttendance

/-- C5: seat normalization is case-insensitive and total: the full words
NORTH/SOUTH/EAST/WEST in any letter case (i.e. any string whose trimmed
upper-casing is the word) map to N/S/E/W respectively, single letters
N/S/E/W in any letter case pass through as their uppercase form, and
every other value — including "up", the empty string, and any non-string
such as the number 123 — maps to null. -/
theorem normalizeSeat_total_case_insensitive :
    (∀ s : String,
      (strToUpper (strTrim s) = "NORTH" → normalizeSeat (Json.str s) = some "N") ∧
      (strToUpper (strTrim s) = "SOUTH" → normalizeSeat (Json.str s) = some "S") ∧
      (strToUpper (strTrim s) = "EAST" → normalizeSeat (Json.str s) = some "E") ∧
      (strToUpper (strTrim s) = "WEST" → normalizeSeat (Json.str s) = some "W") ∧
      (∀ c ∈ (["N", "S", "E", "W"] : List String),
        strToUpper (strTrim s) = c → normalizeSeat (Json.str s) = some c) ∧
      (strToUpper (strTrim s) ∉
          (["NORTH", "SOUTH", "EAST", "WEST", "N", "S", "E", "W"] : List String) →
        normalizeSeat (Json.str s) = none)) ∧
    (∀ j : Json, (∀ s, j ≠ Json.str s) → normalizeSeat j = none) ∧
    normalizeSeat (Json.str "north") = some "N" ∧
    normalizeSeat (Json.str "North") = some "N" ∧
    normalizeSeat (Json.str "n") = some "N" ∧
    normalizeSeat (Json.str "N") = some "N" ∧
    normalizeSeat (Json.str "up") = none ∧
    normalizeSeat (Json.str "") = none ∧
    normalizeSeat (Json.num 123) = none := by
  refine ⟨?_, ?_, rfl, rfl, rfl, rfl, rfl, rfl, rfl⟩
  · intro s
    refine ⟨?_, ?_, ?_, ?_, ?_, ?_⟩
    · intro h; simp [normalizeSeat, h]
    · intro h; simp [normalizeSeat, h]
    · intro h; simp [normalizeSeat, h]
    · intro h; simp [normalizeSeat, h]
    · intro c hc h
      fin_cases hc <;> simp [normalizeSeat, h]
    · intro h
      simp only [List.mem_cons, List.not_mem_nil, or_false, not_or] at h
      obtain ⟨h1, h2, h3, h4, h5, h6, h7, h8⟩ := h
      simp [normalizeSeat, h1, h2, h3, h4, h5, h6, h7, h8]
  · intro j h
    cases j with
    | str s => exact absurd rfl (h s)
    | _ => rfl

/-- C5 witness. -/
theorem normalizeSeat_total_case_insensitive_witness :
    normalizeSeat (Json.str " West ") = some "W" :=
  (normalizeSeat_total_case_insensitive.1 " West ").2.2.2.1 (by decide)

/-- C7: the Identity Resolver looks an existing Student up by exact,
case-sensitive string equality on the name; on a hit that Student is
returned and the store is unchanged; on a miss a new Student is created
with `first_event_id` equal to the originating event id — so two names
that differ (in particular, differ only in letter case) resolve to two
distinct Student entities. -/
theorem getOrCreateStudentByName_spec :
    (∀ (db : Db) (name eventId : String),
      (∃ s ∈ db.students, s.name = name) →
      ∃ t, getOrCreateStudentByName db name eventId = (db, t) ∧
        t ∈ db.students ∧ t.name = name) ∧
    (∀ (db : Db) (name eventId : String),
      (∀ s ∈ db.students, s.name ≠ name) →
      ∃ t, getOrCreateStudentByName db name eventId =
          ({ db with students := db.students ++ [t], nextId := db.nextId + 1 }, t) ∧
        t.name = name ∧ t.first_event_id = some eventId) ∧
    (∀ (db : Db) (n1 n2 eventId : String),
      n1 ≠ n2 →
      (∀ s ∈ db.students, s.name ≠ n1 ∧ s.name ≠ n2) →
      (getOrCreateStudentByName db n1 eventId).2 ≠
          (getOrCreateStudentByName (getOrCreateStudentByName db n1 eventId).1 n2 eventId).2 ∧
      (getOrCreateStudentByName db n1 eventId).2.name = n1 ∧
      (getOrCreateStudentByName (getOrCreateStudentByName db n1 eventId).1 n2 eventId).2.name = n2 ∧
      (getOrCreateStudentByName db n1 eventId).2 ∈
        (getOrCreateStudentByName (getOrCreateStudentByName db n1 eventId).1 n2 eventId).1.students ∧
      (getOrCreateStudentByName (getOrCreateStudentByName db n1 eventId).1 n2 eventId).2 ∈
        (getOrCreateStudentByName (getOrCreateStudentByName db n1 eventId).1 n2 eventId).1.students) := by
  refine ⟨getOrCreate_found, ?_, ?_⟩
  · intro db name eventId h
    exact ⟨_, getOrCreate_miss db name eventId h, rfl, rfl⟩
  · intro db n1 n2 eventId hne h
    have h1 := getOrCreate_miss db n1 eventId (fun s hs => (h s hs).1)
    set db1 := (getOrCreateStudentByName db n1 eventId).1 with hdb1
    set t1 := (getOrCreateStudentByName db n1 eventId).2 with ht1
    have hdb1' : db1 = { db with
        students := db.students ++ [⟨generateId db.nextId, n1, none, some eventId⟩],
        nextId := db.nextId + 1 } := by rw [hdb1, h1]
    have ht1' : t1 = ⟨generateId db.nextId, n1, none, some eventId⟩ := by rw [ht1, h1]
    have h2 : ∀ s ∈ db1.students, s.name ≠ n2 := by
      rw [hdb1']
      intro s hs
      rcases List.mem_append.mp hs with hs | hs
      · exact (h s hs).2
      · simp only [List.mem_singleton] at hs
        subst hs
        simpa using hne
    have h2' := getOrCreate_miss db1 n2 eventId h2
    set t2 := (getOrCreateStudentByName db1 n2 eventId).2 with ht2
    have ht2' : t2 = ⟨generateId db1.nextId, n2, none, some eventId⟩ := by rw [ht2, h2']
    have hn1 : t1.name = n1 := by rw [ht1']
    have hn2 : t2.name = n2 := by rw [ht2']
    refine ⟨?_, hn1, hn2, ?_, ?_⟩
    · intro hcontra
      exact hne (hn1 ▸ hn2 ▸ congrArg StudentRow.name hcontra)
    · rw [h2']
      simp only []
      rw [hdb1']
      simp [ht1']
    · rw [h2']
      simp [ht2']

/-- C7 witness. -/
theorem getOrCreateStudentByName_spec_witness :
    (getOrCreateStudentByName db0 "Alice Johnson" "EV000001").2 ≠
      (getOrCreateStudentByName
        (getOrCreateStudentByName db0 "Alice Johnson" "EV000001").1 "alice johnson" "EV000001").2 :=
  (getOrCreateStudentByName_spec.2.2 db0 "Alice Johnson" "alice johnson" "EV000001"
    (by decide) (by simp [db0])).1

end BridgeAttendance


namespace BridgeAttendance

/-- C3: when the uniqueness constraint on (event_id, student_id) rejects
the confirm-path insert because a concurrent confirm committed the row
between this request's existence check and its insert, the rejection is
NOT treated as a benign "already recorded": `confirm.ts` has no try/catch
around `recordAttendance`, so the store error propagates out of the
operation instead of yielding a `skipped` report — while the direct
single-attendance endpoint maps the same rejection to a 409 Conflict.
This theorem evaluates both handlers at the failing input. -/
theorem confirm_unique_violation_propagates :
    confirmAttendanceStepRaced "EV000001" dbBob bobRow entryBob =
      .error (.unique "attendance.event_id, attendance.student_id") ∧
    (∀ out, confirmAttendanceStepRaced "EV000001" dbBob bobRow entryBob ≠ .ok out) ∧
    postAttendance { dbBob with attendance := [bobRow] } "EV000001"
        { student_name := "Bob", table_number := none, seat := none, source := none } =
      .error (conflict "Bob is already recorded for this event") := by
  refine ⟨rfl, ?_, rfl⟩
  intro out h
  rw [show confirmAttendanceStepRaced "EV000001" dbBob bobRow entryBob =
      .error (.unique "attendance.event_id, attendance.student_id") from rfl] at h
  exact Except.noConfusion h

/-- C4 counterexample: the confirm path inserts rows with source tag
"ocr", not "extracted", and the store's CHECK constraint rejects
"extracted" — the source domain is {"ocr", "manual", "online"}. -/
theorem confirm_source_not_extracted :
    (postConfirm db0 "EV000001" bodyBob).toOption.map
        (fun x => x.1.attendance.map (fun a => a.source)) = some ["ocr"] ∧
    some ["ocr"] ≠ some ["extracted"] ∧
    recordAttendance dbBob "EV000001" "u" none none (some "extracted") =
      .error (.check "attendance.source") := by
  refine ⟨rfl, ?_, rfl⟩
  simp

/-- C4 (amended): every attendance row inserted by the confirm path for
an entry with a non-empty trimmed name and no existing (event, student)
row carries source tag "ocr"; every successfully inserted row's source
lies in the schema's domain {"ocr", "manual", "online"}; and a source
outside that domain is rejected by the CHECK constraint. -/
theorem confirm_insert_source_ocr :
    (∀ (db : Db) (eventId : String) (res : List EntryResult)
        (entry : ConfirmAttendanceEntry) (db' : Db) (res' : List EntryResult),
      confirmAttendanceStep eventId (db, res) entry = .ok (db', res') →
      ∀ a ∈ db'.attendance, a ∉ db.attendance → a.source = "ocr") ∧
    (∀ (db : Db) (eid sid : String) (tn : Option Int) (seat : Option String)
        (src : Option String) (out : Db × AttendanceRow),
      recordAttendance db eid sid tn seat src = .ok out →
      out.2.source ∈ (["ocr", "manual", "online"] : List String)) ∧
    (∀ (db : Db) (eid sid : String) (tn : Option Int) (seat : Option String) (src : String),
      sourceCheckOk src = false →
      recordAttendance db eid sid tn seat (some src) = .error (.check "attendance.source")) := by
  refine ⟨?_, ?_, ?_⟩
  · intro db eventId res entry db' res' h a ha hnot
    simp only [confirmAttendanceStep] at h
    by_cases hskip : strTrim entry.student_name = ""
    · simp only [if_pos hskip, Except.ok.injEq, Prod.mk.injEq] at h
      rw [← h.1] at ha
      exact absurd ha hnot
    · simp only [if_neg hskip] at h
      obtain ⟨ext, hext⟩ := getOrCreate_state db (strTrim entry.student_name) eventId
      have hatt : (getOrCreateStudentByName db (strTrim entry.student_name) eventId).1.attendance
          = db.attendance := by rw [hext]
      by_cases hrec : alreadyRecordedCheck
          (getOrCreateStudentByName db (strTrim entry.student_name) eventId).1 eventId
          (getOrCreateStudentByName db (strTrim entry.student_name) eventId).2.id = true
      · rw [if_pos hrec] at h
        simp only [Except.ok.injEq, Prod.mk.injEq] at h
        rw [← h.1, hatt] at ha
        exact absurd ha hnot
      · rw [if_neg hrec] at h
        cases hra : recordAttendance (getOrCreateStudentByName db (strTrim entry.student_name) eventId).1
            eventId (getOrCreateStudentByName db (strTrim entry.student_name) eventId).2.id
            entry.table_number entry.seat (some "ocr") with
        | error e =>
            rw [hra] at h
            exact Except.noConfusion h
        | ok out =>
            rw [hra] at h
            obtain ⟨hrow, hdb1, -, -, -⟩ := recordAttendance_ok hra
            simp only [Except.ok.injEq, Prod.mk.injEq] at h
            rw [← h.1, hdb1] at ha
            simp only [List.mem_append, List.mem_singleton] at ha
            rcases ha with ha | ha
            · rw [hatt] at ha
              exact absurd ha hnot
            · rw [ha, hrow]
              rfl
  · intro db eid sid tn seat src out h
    obtain ⟨hrow, -, hsrc, -, -⟩ := recordAttendance_ok h
    have : out.2.source = src.getD "manual" := by rw [hrow]
    rw [this]
    simpa [sourceCheckOk, List.contains] using hsrc
  · intro db eid sid tn seat src h
    unfold recordAttendance
    rw [if_pos (by simpa using h)]

/-- C4 witness. -/
theorem confirm_insert_source_ocr_witness :
    recordAttendance db0 "EV000001" "u" none none (some "extracted") =
      .error (.check "attendance.source") :=
  confirm_insert_source_ocr.2.2 db0 "EV000001" "u" none none "extracted" (by decide)

/-- C10: the direct mailing-list add stores the email (and name) exactly
as supplied and its pre-insert duplicate check compares the raw string;
consequently two requests whose emails differ only in letter case both
succeed, leaving two stored rows with equal normalized emails. -/
theorem postMailingList_raw_email :
    (∀ (db : Db) (body : AddMailingListBody),
      body.name ≠ "" → body.email ≠ "" →
      (∀ row ∈ db.mailing_list, row.email ≠ body.email) →
      ∃ row db', postMailingList db body = .ok (db', row) ∧
        row.email = body.email ∧ row.name = body.name ∧
        db'.mailing_list = db.mailing_list ++ [row]) ∧
    (∀ (db : Db) (body : AddMailingListBody),
      body.name ≠ "" → body.email ≠ "" →
      (∃ row ∈ db.mailing_list, row.email = body.email) →
      postMailingList db body =
        .error (conflict ("Email " ++ body.email ++ " is already on the mailing list"))) ∧
    ((postMailingList db0 { name := "P", email := "x@y.com", event_id := none }).bind
        (fun x => postMailingList x.1 { name := "Q", email := "X@Y.COM", event_id := none })).toOption.map
      (fun x => (x.1.mailing_list.map (fun m => m.email),
                 x.1.mailing_list.map (fun m => strToLower m.email))) =
      some (["x@y.com", "X@Y.COM"], ["x@y.com", "x@y.com"]) := by
  refine ⟨?_, ?_, rfl⟩
  · intro db body hname hemail hnodup
    have hfind : db.mailing_list.find? (fun r => r.email = body.email) = none := by
      rw [List.find?_eq_none]
      intro r hr
      simp [hnodup r hr]
    have hany : db.mailing_list.any (fun r => r.email = body.email) = false := by
      rw [Bool.eq_false_iff]
      intro hcontra
      obtain ⟨r, hr, hre⟩ := List.any_eq_true.mp hcontra
      exact hnodup r hr (by simpa using hre)
    refine ⟨⟨generateId db.nextId, body.name, body.email, body.event_id⟩,
      { db with
        mailing_list := db.mailing_list ++ [⟨generateId db.nextId, body.name, body.email, body.event_id⟩],
        nextId := db.nextId + 1 }, ?_, rfl, rfl, rfl⟩
    simp [postMailingList, hname, hemail, getMailingListByEmail, hfind,
          addMailingListEntry, hany, Except.mapError]
  · intro db body hname hemail hdup
    have hsome : (db.mailing_list.find? (fun r => r.email = body.email)).isSome = true := by
      rw [List.find?_isSome]
      obtain ⟨r, hr, hre⟩ := hdup
      exact ⟨r, hr, by simp [hre]⟩
    simp only [postMailingList, hname, hemail, getMailingListByEmail, hsome,
      if_true, if_neg, ite_false, ite_true, reduceIte]
    simp [throw, throwThe, MonadExceptOf.throw, Bind.bind, Except.bind, hsome, pure, Except.pure]

/-- C10 witness. -/
theorem postMailingList_raw_email_witness :
    postMailingList
        { dbAlice with mailing_list := [{ id := "ml1", name := "P0", email := "x@y.com", event_id := none }] }
        { name := "P", email := "x@y.com", event_id := none } =
      .error (conflict ("Email " ++ "x@y.com" ++ " is already on the mailing list")) :=
  postMailingList_raw_email.2.1
    { dbAlice with mailing_list := [{ id := "ml1", name := "P0", email := "x@y.com", event_id := none }] }
    { name := "P", email := "x@y.com", event_id := none }
    (by decide) (by decide) (by simp)

/-- C6: in the confirm path's Mailing-List Reconciler the dedup key is
the trimmed, lower-cased email and the first write wins: an entry whose
normalized email is already stored is reported "skipped" and leaves the
store (in particular the stored name) unchanged; an entry with a fresh
normalized email is stored with trimmed name and normalized email; and
the two-entry example {"A","x@y.com"} then {"A2","X@Y.COM"} yields
exactly one stored row ("A", "x@y.com"). -/
theorem confirmMailing_first_write_wins :
    (∀ (db : Db) (eventId : String) (results : List MailingResult)
        (entry : ConfirmMailingEntry),
      strTrim entry.name ≠ "" → strTrim entry.email ≠ "" →
      (∃ row ∈ db.mailing_list, row.email = strToLower (strTrim entry.email)) →
      confirmMailingStep eventId (db, results) entry =
        .ok (db, results ++ [⟨entry.name, strToLower (strTrim entry.email), "skipped"⟩])) ∧
    (∀ (db : Db) (eventId : String) (results : List MailingResult)
        (entry : ConfirmMailingEntry),
      strTrim entry.name ≠ "" → strTrim entry.email ≠ "" →
      (∀ row ∈ db.mailing_list, row.email ≠ strToLower (strTrim entry.email)) →
      ∃ row, confirmMailingStep eventId (db, results) entry =
          .ok ({ db with mailing_list := db.mailing_list ++ [row], nextId := db.nextId + 1 },
               results ++ [⟨entry.name, strToLower (strTrim entry.email), "created"⟩]) ∧
        row.name = strTrim entry.name ∧ row.email = strToLower (strTrim entry.email)) ∧
    ((postConfirm db0 "EV000001"
        { attendance := [],
          mailing_list := [{ name := "A", email := "x@y.com" }, { name := "A2", email := "X@Y.COM" }] }).toOption.map
      (fun x => (x.1.mailing_list.map (fun m => (m.name, m.email)),
                 x.2.mailing_created, x.2.mailing_skipped)) =
      some ([("A", "x@y.com")], 1, 1)) := by
  refine ⟨?_, ?_, rfl⟩
  · intro db eventId results entry hn he hdup
    have hsome : (db.mailing_list.find? (fun r => r.email = strToLower (strTrim entry.email))).isSome = true := by
      rw [List.find?_isSome]
      obtain ⟨r, hr, hre⟩ := hdup
      exact ⟨r, hr, by simp [hre]⟩
    obtain ⟨r, hrfind⟩ := Option.isSome_iff_exists.mp hsome
    simp [confirmMailingStep, hn, he, getMailingListByEmail, hrfind]
  · intro db eventId results entry hn he hnodup
    have hfind : db.mailing_list.find? (fun r => r.email = strToLower (strTrim entry.email)) = none := by
      rw [List.find?_eq_none]
      intro r hr
      simp [hnodup r hr]
    have hany : db.mailing_list.any (fun r => r.email = strToLower (strTrim entry.email)) = false := by
      rw [Bool.eq_false_iff]
      intro hcontra
      obtain ⟨r, hr, hre⟩ := List.any_eq_true.mp hcontra
      exact hnodup r hr (by simpa using hre)
    refine ⟨⟨generateId db.nextId, strTrim entry.name, strToLower (strTrim entry.email), some eventId⟩, ?_, rfl, rfl⟩
    simp [confirmMailingStep, hn, he, getMailingListByEmail, hfind, addMailingListEntry, hany]

/-- C6 witness. -/
theorem confirmMailing_first_write_wins_witness :
    confirmMailingStep "EV000001"
        ({ db0 with mailing_list := [{ id := "ml1", name := "A", email := "x@y.com", event_id := none }] }, [])
        { name := "A2", email := "X@Y.COM" } =
      .ok ({ db0 with mailing_list := [{ id := "ml1", name := "A", email := "x@y.com", event_id := none }] },
           [⟨"A2", strToLower (strTrim "X@Y.COM"), "skipped"⟩]) :=
  confirmMailing_first_write_wins.1
    { db0 with mailing_list := [{ id := "ml1", name := "A", email := "x@y.com", event_id := none }] }
    "EV000001" [] { name := "A2", email := "X@Y.COM" }
    (by decide) (by decide) (by decide)

end BridgeAttendance

namespace BridgeAttendance

/-- C8: when the extraction step throws, the scan operation records the
OcrJob as "failed" with the error message stored, yet still returns an
HTTP-success response carrying the job id, blob key, status "failed" and
the error message; the stored blob stays in the photo store. -/
theorem scan_failed_extraction_reports_success :
    ∀ (db : Db) (photos : List String) (eventId r2Key msg : String),
      (getEventById db eventId).isSome = true →
      ∃ db' jobRow,
        postScan db photos eventId r2Key (.error msg) =
          .ok (db', photos ++ [r2Key],
               { ocr_job_id := jobRow.id, r2_key := r2Key, status := "failed",
                 result := none, error := some msg }) ∧
        db'.ocr_jobs.getLast? = some jobRow ∧
        jobRow.status = "failed" ∧
        jobRow.error_message = some msg ∧
        jobRow.event_id = eventId ∧
        jobRow.r2_key = r2Key ∧
        r2Key ∈ photos ++ [r2Key] := by
  intro db photos eventId r2Key msg hev
  obtain ⟨e, hge⟩ := Option.isSome_iff_exists.mp hev
  refine ⟨updateOcrJobFailed
      (updateOcrJobProcessing (insertOcrJob db eventId r2Key).1 (insertOcrJob db eventId r2Key).2.id)
      (insertOcrJob db eventId r2Key).2.id msg,
    ⟨generateId db.nextId, eventId, r2Key, "failed", none, some msg⟩, ?_, ?_, rfl, rfl, rfl, rfl, by simp⟩
  · unfold postScan
    rw [hge]
    rfl
  · simp only [insertOcrJob, updateOcrJobProcessing, updateOcrJobFailed]
    rw [List.map_append, List.map_append]
    rw [List.getLast?_append_of_ne_nil _ (by simp)]
    simp

/-- C8 witness. -/
theorem scan_failed_extraction_reports_success_witness :
    ∃ db' jobRow,
      postScan db0 [] "EV000001" "k1" (.error "boom") =
        .ok (db', [] ++ ["k1"],
             { ocr_job_id := jobRow.id, r2_key := "k1", status := "failed",
               result := none, error := some "boom" }) ∧
      db'.ocr_jobs.getLast? = some jobRow ∧
      jobRow.status = "failed" ∧
      jobRow.error_message = some "boom" ∧
      jobRow.event_id = "EV000001" ∧
      jobRow.r2_key = "k1" ∧
      "k1" ∈ [] ++ ["k1"] :=
  scan_failed_extraction_reports_success db0 [] "EV000001" "k1" "boom" (by decide)

/-- C9: the roster endpoint returns, for the event's *name*, the distinct
set of students who have ever attended any event sharing that name (not
just the given occurrence), each joined against Member by
case-insensitive exact name match, with needs_mailing_list true exactly
when there is no matching Member and the (matched) declined flag is
false; concretely, Alice Johnson with a member row "alice johnson" does
not need signup, while deleting that member row flips the flag. -/
theorem roster_cross_reference_spec :
    (∀ (db : Db) (eventId : String) (event : EventRow),
      getEventById db eventId = some event →
      ∃ resp, getRoster db eventId = .ok resp ∧
        resp.class_name = event.name ∧
        (∀ s ∈ db.students,
          ((∃ st ∈ resp.students, st.student_id = s.id) ↔
            (∃ a ∈ db.attendance, a.student_id = s.id ∧
              ∃ e ∈ db.events, e.id = a.event_id ∧ e.name = event.name))) ∧
        (∀ st ∈ resp.students,
          (st.needs_mailing_list = true ↔
            ((∀ m ∈ db.members, strToLower m.name ≠ strToLower st.name) ∧
             st.declined = false)))) ∧
    ((getRoster dbAlice "EV000001").toOption.map
      (fun r => r.students.map (fun s => (s.name, s.needs_mailing_list))) =
      some [("Alice Johnson", false)]) ∧
    ((getRoster { dbAlice with members := [] } "EV000001").toOption.map
      (fun r => r.students.map (fun s => (s.name, s.needs_mailing_list))) =
      some [("Alice Johnson", true)]) := by
  refine ⟨?_, rfl, rfl⟩
  intro db eventId event hev
  refine ⟨{ class_name := event.name
            teacher := event.teacher
            total_students := ((getRosterForClass db event.name).map rosterStudentOfRow).length
            needs_mailing_list := (((getRosterForClass db event.name).map rosterStudentOfRow).filter
              (fun s => s.needs_mailing_list)).length
            students := (getRosterForClass db event.name).map rosterStudentOfRow },
    ?_, rfl, ?_, ?_⟩
  · unfold getRoster
    rw [hev]
    rfl
  · intro s hs
    simp only []
    constructor
    · rintro ⟨st, hst, hid⟩
      obtain ⟨r, hr, hrst⟩ := List.mem_map.mp hst
      obtain ⟨s', hs', hmk⟩ := List.mem_map.mp hr
      obtain ⟨hs'mem, hs'att⟩ := List.mem_filter.mp hs'
      obtain ⟨a, ha, hcond⟩ := List.any_eq_true.mp hs'att
      simp only [Bool.and_eq_true, decide_eq_true_eq] at hcond
      obtain ⟨e, he, hecond⟩ := List.any_eq_true.mp hcond.2
      simp only [Bool.and_eq_true, decide_eq_true_eq] at hecond
      refine ⟨a, ha, ?_, e, he, hecond.1, hecond.2⟩
      have hsid : st.student_id = s'.id := by
        rw [← hrst, ← hmk]
        rfl
      rw [← hid, hsid, hcond.1]
    · rintro ⟨a, ha, haid, e, he, heid, hename⟩
      have hfil : s ∈ db.students.filter (fun s =>
          db.attendance.any (fun a => a.student_id = s.id &&
            db.events.any (fun e => e.id = a.event_id && e.name = event.name))) := by
        rw [List.mem_filter]
        refine ⟨hs, List.any_eq_true.mpr ⟨a, ha, ?_⟩⟩
        simp only [Bool.and_eq_true, decide_eq_true_eq]
        exact ⟨haid, List.any_eq_true.mpr ⟨e, he, by simp [heid, hename]⟩⟩
      refine ⟨rosterStudentOfRow _, List.mem_map.mpr ⟨_, List.mem_map.mpr ⟨s, hfil, rfl⟩, rfl⟩, rfl⟩
  · intro st hst
    obtain ⟨r, hr, hrst⟩ := List.mem_map.mp hst
    obtain ⟨s', hs', hmk⟩ := List.mem_map.mp hr
    subst hrst
    subst hmk
    cases hfind : db.members.find? (fun m => strToLower m.name = strToLower s'.name) with
    | none =>
        have hnomem : ∀ m ∈ db.members, strToLower m.name ≠ strToLower s'.name := by
          intro m hm
          have := List.find?_eq_none.mp hfind m hm
          simpa using this
        simp [rosterStudentOfRow, getRosterForClass, hfind]
        exact hnomem
    | some mem =>
        have hmem : mem ∈ db.members := List.mem_of_find?_eq_some hfind
        have hmatch : strToLower mem.name = strToLower s'.name := by
          simpa using List.find?_some hfind
        simp only [rosterStudentOfRow, getRosterForClass, hfind, Option.isSome_some,
          if_true, reduceIte]
        constructor
        · intro hcontra
          simp at hcontra
        · rintro ⟨hall, -⟩
          exact absurd hmatch (hall mem hmem)

/-- C9 witness. -/
theorem roster_cross_reference_spec_witness :
    ∃ resp, getRoster dbAlice "EV000001" = .ok resp ∧
      resp.class_name = evT.name ∧
      (∀ s ∈ dbAlice.students,
        ((∃ st ∈ resp.students, st.student_id = s.id) ↔
          (∃ a ∈ dbAlice.attendance, a.student_id = s.id ∧
            ∃ e ∈ dbAlice.events, e.id = a.event_id ∧ e.name = evT.name))) ∧
      (∀ st ∈ resp.students,
        (st.needs_mailing_list = true ↔
          ((∀ m ∈ dbAlice.members, strToLower m.name ≠ strToLower st.name) ∧
           st.declined = false))) :=
  roster_cross_reference_spec.1 dbAlice "EV000001" evT (by decide)

end BridgeAttendance

namespace BridgeAttendance

-- ===========================================================================
-- Support for the idempotence claim
-- ===========================================================================


theorem dbGrows_refl (db : Db) : dbGrows db db :=
  ⟨rfl, ⟨[], by simp⟩, ⟨[], by simp⟩⟩

theorem dbGrows_trans {db db' db'' : Db} (h1 : dbGrows db db') (h2 : dbGrows db' db'') :
    dbGrows db db'' := by
  obtain ⟨he1, ⟨s1, hs1⟩, ⟨a1, ha1⟩⟩ := h1
  obtain ⟨he2, ⟨s2, hs2⟩, ⟨a2, ha2⟩⟩ := h2
  exact ⟨he2.trans he1, ⟨s1 ++ s2, by rw [hs2, hs1, List.append_assoc]⟩,
         ⟨a1 ++ a2, by rw [ha2, ha1, List.append_assoc]⟩⟩

theorem getEventById_congr {db db' : Db} (h : db'.events = db.events) (eid : String) :
    getEventById db' eid = getEventById db eid := by
  unfold getEventById
  rw [h]


theorem entryDone_mono {db db' : Db} {eid n : String}
    (hg : dbGrows db db') (h : entryDone db eid n) : entryDone db' eid n := by
  obtain ⟨-, ⟨e1, hs⟩, ⟨e2, ha⟩⟩ := hg
  obtain ⟨s, hfind, a, hamem, haev, haid⟩ := h
  refine ⟨s, ?_, a, ?_, haev, haid⟩
  · unfold getStudentByName at hfind ⊢
    rw [hs, List.find?_append, hfind]
    rfl
  · rw [ha]
    exact List.mem_append_left _ hamem

/-- The confirm resolver's result can be found again by name in the
resulting store. -/
theorem getOrCreate_find (db : Db) (n eid : String) :
    getStudentByName (getOrCreateStudentByName db n eid).1 n =
      some (getOrCreateStudentByName db n eid).2 := by
  unfold getOrCreateStudentByName
  cases hf : getStudentByName db n with
  | some s => simpa using hf
  | none =>
      simp only [insertStudent]
      unfold getStudentByName at hf ⊢
      rw [List.find?_append, hf]
      simp

theorem getOrCreate_mem (db : Db) (n eid : String) :
    (getOrCreateStudentByName db n eid).2 ∈ (getOrCreateStudentByName db n eid).1.students :=
  List.mem_of_find?_eq_some (getOrCreate_find db n eid)

theorem getOrCreate_grows (db : Db) (n eid : String) :
    dbGrows db (getOrCreateStudentByName db n eid).1 := by
  obtain ⟨ext, hext⟩ := getOrCreate_state db n eid
  rw [hext]
  exact ⟨rfl, ⟨ext, rfl⟩, ⟨[], by simp⟩⟩

/-- Completeness of the confirm loop's duplicate check: a present pair
whose student is in the student table is seen by the joined query. -/
theorem alreadyRecorded_complete {db : Db} {eid : String} {s : StudentRow} {a : AttendanceRow}
    (hev : (getEventById db eid).isSome = true)
    (hs : s ∈ db.students) (ha : a ∈ db.attendance)
    (he : a.event_id = eid) (hid : a.student_id = s.id) :
    alreadyRecordedCheck db eid s.id = true := by
  obtain ⟨e, hge⟩ := Option.isSome_iff_exists.mp hev
  unfold alreadyRecordedCheck getEventWithAttendance
  rw [hge]
  simp only [List.any_eq_true]
  have hfs : (db.students.find? (fun st => st.id = a.student_id)).isSome = true := by
    rw [List.find?_isSome]
    exact ⟨s, hs, by simp [hid]⟩
  obtain ⟨s0, hs0⟩ := Option.isSome_iff_exists.mp hfs
  refine ⟨⟨a, s0.name, s0.email⟩, ?_, by simp [hid]⟩
  rw [List.mem_filterMap]
  refine ⟨a, List.mem_filter.mpr ⟨ha, by simp [he]⟩, ?_⟩
  rw [hs0]
  rfl

/-- Soundness of the confirm loop's duplicate check. -/
theorem alreadyRecorded_sound {db : Db} {eid sid : String}
    (h : alreadyRecordedCheck db eid sid = true) :
    ∃ a ∈ db.attendance, a.event_id = eid ∧ a.student_id = sid := by
  unfold alreadyRecordedCheck at h
  cases hge : getEventWithAttendance db eid with
  | none =>
      rw [hge] at h
      exact absurd h (by simp)
  | some pr =>
      rw [hge] at h
      unfold getEventWithAttendance at hge
      cases hge2 : getEventById db eid with
      | none =>
          rw [hge2] at hge
          exact absurd hge (by simp)
      | some e =>
          rw [hge2] at hge
          simp only [Option.some.injEq] at hge
          obtain ⟨x, hx, hxs⟩ := List.any_eq_true.mp h
          rw [← hge] at hx
          obtain ⟨a, hafil, hfa⟩ := List.mem_filterMap.mp hx
          obtain ⟨hamem, haev⟩ := List.mem_filter.mp hafil
          cases hfind : db.students.find? (fun st => st.id = a.student_id) with
          | none =>
              rw [hfind] at hfa
              exact absurd hfa (by simp)
          | some s0 =>
              rw [hfind] at hfa
              simp only [Option.map_some', Option.some.injEq] at hfa
              refine ⟨a, hamem, by simpa using haev, ?_⟩
              have hrow : x.row = a := by rw [← hfa]
              rw [← hrow]
              simpa using hxs

end BridgeAttendance

namespace BridgeAttendance

/-- Full behavior of one confirm attendance iteration under a valid
seat: it succeeds, grows the store, reports exactly one created/skipped
result for a non-empty name, and leaves the entry committed. -/
theorem confirmStep_spec (db : Db) (res : List EntryResult) (eid : String)
    (entry : ConfirmAttendanceEntry)
    (hev : (getEventById db eid).isSome = true)
    (hseat : seatCheckOk entry.seat = true) :
    (strTrim entry.student_name = "" ∧
      confirmAttendanceStep eid (db, res) entry = .ok (db, res)) ∨
    (strTrim entry.student_name ≠ "" ∧
      ∃ db' rr, confirmAttendanceStep eid (db, res) entry = .ok (db', res ++ [rr]) ∧
        (rr.status = "created" ∨ rr.status = "skipped") ∧
        dbGrows db db' ∧ entryDone db' eid (strTrim entry.student_name)) := by
  by_cases hskip : strTrim entry.student_name = ""
  · left
    refine ⟨hskip, ?_⟩
    unfold confirmAttendanceStep
    rw [if_pos hskip]
  · right
    refine ⟨hskip, ?_⟩
    have hgrow1 := getOrCreate_grows db (strTrim entry.student_name) eid
    have hfind1 := getOrCreate_find db (strTrim entry.student_name) eid
    have hev1 : (getEventById (getOrCreateStudentByName db (strTrim entry.student_name) eid).1 eid).isSome = true := by
      rw [getEventById_congr hgrow1.1]
      exact hev
    by_cases hrec : alreadyRecordedCheck
        (getOrCreateStudentByName db (strTrim entry.student_name) eid).1 eid
        (getOrCreateStudentByName db (strTrim entry.student_name) eid).2.id = true
    · refine ⟨(getOrCreateStudentByName db (strTrim entry.student_name) eid).1,
        ⟨entry.student_name, (getOrCreateStudentByName db (strTrim entry.student_name) eid).2.id, "skipped"⟩,
        ?_, Or.inr rfl, hgrow1, ?_⟩
      · unfold confirmAttendanceStep
        rw [if_neg hskip, if_pos hrec]
      · obtain ⟨a, ha, haev, haid⟩ := alreadyRecorded_sound hrec
        exact ⟨_, hfind1, a, ha, haev, haid⟩
    · have hnodup : (getOrCreateStudentByName db (strTrim entry.student_name) eid).1.attendance.any
          (fun a => a.event_id = eid &&
            a.student_id = (getOrCreateStudentByName db (strTrim entry.student_name) eid).2.id) = false := by
        rw [Bool.eq_false_iff]
        intro hcontra
        obtain ⟨a, ha, hcond⟩ := List.any_eq_true.mp hcontra
        simp only [Bool.and_eq_true, decide_eq_true_eq] at hcond
        exact hrec (alreadyRecorded_complete hev1
          (getOrCreate_mem db (strTrim entry.student_name) eid) ha hcond.1 hcond.2)
      have hra := recordAttendance_succeeds
        (getOrCreateStudentByName db (strTrim entry.student_name) eid).1 eid
        (getOrCreateStudentByName db (strTrim entry.student_name) eid).2.id
        entry.table_number entry.seat (some "ocr") (by decide) (by simpa using hseat) hnodup
      refine ⟨{ (getOrCreateStudentByName db (strTrim entry.student_name) eid).1 with
          attendance := (getOrCreateStudentByName db (strTrim entry.student_name) eid).1.attendance ++
            [⟨generateId (getOrCreateStudentByName db (strTrim entry.student_name) eid).1.nextId,
              eid, (getOrCreateStudentByName db (strTrim entry.student_name) eid).2.id,
              entry.table_number, entry.seat, (some "ocr").getD "manual"⟩],
          nextId := (getOrCreateStudentByName db (strTrim entry.student_name) eid).1.nextId + 1 },
        ⟨entry.student_name,
          (getOrCreateStudentByName db (strTrim entry.student_name) eid).2.id, "created"⟩,
        ?_, Or.inl rfl, ?_, ?_⟩
      · unfold confirmAttendanceStep
        rw [if_neg hskip, if_neg hrec, hra]
      · exact dbGrows_trans hgrow1 ⟨rfl, ⟨[], by simp⟩, ⟨_, rfl⟩⟩
      · refine ⟨(getOrCreateStudentByName db (strTrim entry.student_name) eid).2, hfind1, ?_⟩
        exact ⟨_, List.mem_append_right _ (List.mem_singleton.mpr rfl), rfl, rfl⟩

/-- When an entry is already committed, the confirm attendance iteration
is a pure no-op on the store and reports `skipped`. -/
theorem confirmStep_done (db : Db) (res : List EntryResult) (eid : String)
    (entry : ConfirmAttendanceEntry)
    (hev : (getEventById db eid).isSome = true)
    (hskip : strTrim entry.student_name ≠ "")
    (hdone : entryDone db eid (strTrim entry.student_name)) :
    ∃ stu, getStudentByName db (strTrim entry.student_name) = some stu ∧
      confirmAttendanceStep eid (db, res) entry =
        .ok (db, res ++ [⟨entry.student_name, stu.id, "skipped"⟩]) := by
  obtain ⟨stu, hfind, a, ha, haev, haid⟩ := hdone
  have hoc : getOrCreateStudentByName db (strTrim entry.student_name) eid = (db, stu) := by
    unfold getOrCreateStudentByName
    rw [hfind]
  have hrec : alreadyRecordedCheck db eid stu.id = true :=
    alreadyRecorded_complete hev (List.mem_of_find?_eq_some hfind) ha haev haid
  refine ⟨stu, hfind, ?_⟩
  unfold confirmAttendanceStep
  rw [if_neg hskip, hoc]
  simp only [hrec, if_true, reduceIte]

/-- One mailing-list confirm iteration always succeeds and touches
neither events, students nor attendance. -/
theorem confirmMailingStep_total (eid : String) (acc : Db × List MailingResult)
    (entry : ConfirmMailingEntry) :
    ∃ out, confirmMailingStep eid acc entry = .ok out ∧
      out.1.events = acc.1.events ∧ out.1.students = acc.1.students ∧
      out.1.attendance = acc.1.attendance := by
  unfold confirmMailingStep
  by_cases hskip : (strTrim entry.name = "" || strTrim entry.email = "") = true
  · rw [if_pos hskip]
    exact ⟨_, rfl, rfl, rfl, rfl⟩
  · rw [if_neg hskip]
    cases hfind : getMailingListByEmail acc.1 (strToLower (strTrim entry.email)) with
    | some row =>
        simp only [hfind]
        exact ⟨_, rfl, rfl, rfl, rfl⟩
    | none =>
        simp only [hfind]
        have hany : acc.1.mailing_list.any
            (fun r => r.email = strToLower (strTrim entry.email)) = false := by
          rw [Bool.eq_false_iff]
          intro hcontra
          obtain ⟨r, hr, hre⟩ := List.any_eq_true.mp hcontra
          unfold getMailingListByEmail at hfind
          have := List.find?_eq_none.mp hfind r hr
          exact this hre
        unfold addMailingListEntry
        rw [if_neg (by simp [hany])]
        exact ⟨_, rfl, rfl, rfl, rfl⟩

/-- The mailing-list fold always succeeds and touches neither events,
students nor attendance. -/
theorem confirmMailing_fold (eid : String) (ml : List ConfirmMailingEntry) :
    ∀ (acc : Db × List MailingResult),
      ∃ out, ml.foldlM (confirmMailingStep eid) acc = .ok out ∧
        out.1.events = acc.1.events ∧ out.1.students = acc.1.students ∧
        out.1.attendance = acc.1.attendance := by
  induction ml with
  | nil => exact fun acc => ⟨acc, rfl, rfl, rfl, rfl⟩
  | cons e ml ih =>
      intro acc
      obtain ⟨out1, hout1, h1e, h1s, h1a⟩ := confirmMailingStep_total eid acc e
      obtain ⟨out2, hout2, h2e, h2s, h2a⟩ := ih out1
      refine ⟨out2, ?_, h2e.trans h1e, h2s.trans h1s, h2a.trans h1a⟩
      rw [List.foldlM_cons, hout1]
      simpa using hout2

end BridgeAttendance

namespace BridgeAttendance


theorem entryDone_congr {db db' : Db} (hs : db'.students = db.students)
    (ha : db'.attendance = db.attendance) {eid n : String}
    (h : entryDone db eid n) : entryDone db' eid n := by
  obtain ⟨s, hf, a, ham, he, hid⟩ := h
  refine ⟨s, ?_, a, ?_, he, hid⟩
  · unfold getStudentByName at hf ⊢
    rw [hs]
    exact hf
  · rw [ha]
    exact ham

/-- First run of the confirm attendance fold: succeeds, grows the store,
commits every named entry, and reports one created/skipped result per
named entry. -/
theorem confirmAtt_fold_run1 (eid : String) (entries : List ConfirmAttendanceEntry) :
    ∀ (db : Db) (res : List EntryResult),
      (getEventById db eid).isSome = true →
      (∀ e ∈ entries, seatCheckOk e.seat = true) →
      ∃ db1 extra,
        entries.foldlM (confirmAttendanceStep eid) (db, res) = .ok (db1, res ++ extra) ∧
        dbGrows db db1 ∧
        (∀ e ∈ entries, strTrim e.student_name ≠ "" → entryDone db1 eid (strTrim e.student_name)) ∧
        (∀ n, entryDone db eid n → entryDone db1 eid n) ∧
        (∀ r ∈ extra, r.status = "created" ∨ r.status = "skipped") ∧
        extra.length = (entries.filter hasName).length := by
  induction entries with
  | nil =>
      intro db res hev hseat
      exact ⟨db, [], by simp [List.foldlM_nil, pure, Except.pure], dbGrows_refl db, by simp, fun n h => h, by simp, by simp⟩
  | cons e entries ih =>
      intro db res hev hseat
      rcases confirmStep_spec db res eid e hev (hseat e (List.mem_cons_self e entries)) with
        ⟨hempty, hstep⟩ | ⟨hne, db', rr, hstep, hst, hgrow, hdone⟩
      · obtain ⟨db1, extra, hfold, hgrow1, hdone1, hpres1, hstat1, hlen1⟩ :=
          ih db res hev (fun x hx => hseat x (List.mem_cons_of_mem e hx))
        refine ⟨db1, extra, ?_, hgrow1, ?_, hpres1, hstat1, ?_⟩
        · rw [List.foldlM_cons, hstep]
          simpa using hfold
        · intro x hx hxn
          rcases List.mem_cons.mp hx with hx | hx
          · subst hx
            exact absurd hempty hxn
          · exact hdone1 x hx hxn
        · rw [hlen1, List.filter_cons]
          have : hasName e = false := by simp [hasName, hempty]
          rw [this]
          simp
      · have hev' : (getEventById db' eid).isSome = true := by
          rw [getEventById_congr hgrow.1]
          exact hev
        obtain ⟨db1, extra, hfold, hgrow1, hdone1, hpres1, hstat1, hlen1⟩ :=
          ih db' (res ++ [rr]) hev' (fun x hx => hseat x (List.mem_cons_of_mem e hx))
        refine ⟨db1, rr :: extra, ?_, dbGrows_trans hgrow hgrow1, ?_, ?_, ?_, ?_⟩
        · rw [List.foldlM_cons, hstep]
          simpa [List.append_assoc] using hfold
        · intro x hx hxn
          rcases List.mem_cons.mp hx with hx | hx
          · subst hx
            exact hpres1 _ hdone
          · exact hdone1 x hx hxn
        · intro n hn
          exact hpres1 n (entryDone_mono hgrow hn)
        · intro r hr
          rcases List.mem_cons.mp hr with hr | hr
          · subst hr
            exact hst
          · exact hstat1 r hr
        · rw [List.filter_cons]
          have : hasName e = true := by simp [hasName, hne]
          rw [this]
          simp [hlen1]

/-- Second run of the confirm attendance fold over committed entries:
the store is untouched and every named entry reports `skipped`. -/
theorem confirmAtt_fold_run2 (eid : String) (entries : List ConfirmAttendanceEntry) :
    ∀ (db : Db) (res : List EntryResult),
      (getEventById db eid).isSome = true →
      (∀ e ∈ entries, strTrim e.student_name ≠ "" → entryDone db eid (strTrim e.student_name)) →
      ∃ extra,
        entries.foldlM (confirmAttendanceStep eid) (db, res) = .ok (db, res ++ extra) ∧
        (∀ r ∈ extra, r.status = "skipped") ∧
        extra.length = (entries.filter hasName).length := by
  induction entries with
  | nil =>
      intro db res hev hdone
      exact ⟨[], by simp [List.foldlM_nil, pure, Except.pure], by simp, by simp⟩
  | cons e entries ih =>
      intro db res hev hdone
      by_cases hempty : strTrim e.student_name = ""
      · have hstep : confirmAttendanceStep eid (db, res) e = .ok (db, res) := by
          unfold confirmAttendanceStep
          rw [if_pos hempty]
        obtain ⟨extra, hfold, hstat, hlen⟩ :=
          ih db res hev (fun x hx => hdone x (List.mem_cons_of_mem e hx))
        refine ⟨extra, ?_, hstat, ?_⟩
        · rw [List.foldlM_cons, hstep]
          simpa using hfold
        · rw [hlen, List.filter_cons]
          have : hasName e = false := by simp [hasName, hempty]
          rw [this]
          simp
      · obtain ⟨stu, hfind, hstep⟩ :=
          confirmStep_done db res eid e hev hempty (hdone e (List.mem_cons_self e entries) hempty)
        obtain ⟨extra, hfold, hstat, hlen⟩ :=
          ih db (res ++ [⟨e.student_name, stu.id, "skipped"⟩]) hev
            (fun x hx => hdone x (List.mem_cons_of_mem e hx))
        refine ⟨⟨e.student_name, stu.id, "skipped"⟩ :: extra, ?_, ?_, ?_⟩
        · rw [List.foldlM_cons, hstep]
          simpa [List.append_assoc] using hfold
        · intro r hr
          rcases List.mem_cons.mp hr with hr | hr
          · subst hr
            rfl
          · exact hstat r hr
        · rw [List.filter_cons]
          have : hasName e = true := by simp [hasName, hempty]
          rw [this]
          simp [hlen]

/-- Splitting a created/skipped report into its counts. -/
theorem count_created_skipped (l : List EntryResult)
    (h : ∀ r ∈ l, r.status = "created" ∨ r.status = "skipped") :
    (l.filter (fun r => r.status = "created")).length +
      (l.filter (fun r => r.status = "skipped")).length = l.length := by
  induction l with
  | nil => rfl
  | cons r l ih =>
      have hl := ih (fun x hx => h x (List.mem_cons_of_mem r hx))
      rcases h r (List.mem_cons_self r l) with hr | hr <;>
        · simp only [List.filter_cons, hr]
          simp
          omega

/-- Counts of an all-skipped report. -/
theorem skipped_counts (l : List EntryResult) (h : ∀ r ∈ l, r.status = "skipped") :
    (l.filter (fun r => r.status = "created")).length = 0 ∧
    (l.filter (fun r => r.status = "skipped")).length = l.length := by
  induction l with
  | nil => exact ⟨rfl, rfl⟩
  | cons r l ih =>
      have hr := h r (List.mem_cons_self r l)
      obtain ⟨ih1, ih2⟩ := ih (fun x hx => h x (List.mem_cons_of_mem r hx))
      constructor <;>
        · simp only [List.filter_cons, hr]
          simp [ih1, ih2]

end BridgeAttendance

namespace BridgeAttendance

/-- C2 (amended): for every event present in the store and every
attendance entry list all of whose seats pass the schema's seat CHECK
(absent, or one of N/S/E/W), running confirm twice in sequence with the
same list never errors and never produces a second Attendance row for
any (event, student) pair: the Attendance table after the second call
equals the one after the first, the second call's per-entry report marks
every entry `skipped`, with created = 0 and skipped equal to the first
call's created + skipped, which is the number of entries with a
non-empty trimmed name.  (Without the seat restriction the claim fails:
see the counterexample, where the store's CHECK(seat) rejection
propagates out of the first call.) -/
theorem confirm_idempotent (db : Db) (eventId : String) (body : ConfirmOcrBody)
    (hev : (getEventById db eventId).isSome = true)
    (hseat : ∀ e ∈ body.attendance, seatCheckOk e.seat = true) :
    ∃ db1 r1 db2 r2,
      postConfirm db eventId body = .ok (db1, r1) ∧
      postConfirm db1 eventId body = .ok (db2, r2) ∧
      db2.attendance = db1.attendance ∧
      r2.attendance_created = 0 ∧
      (∀ r ∈ r2.attendance_results, r.status = "skipped") ∧
      r2.attendance_skipped = r1.attendance_created + r1.attendance_skipped ∧
      r1.attendance_created + r1.attendance_skipped =
        (body.attendance.filter hasName).length := by
  obtain ⟨e, hge⟩ := Option.isSome_iff_exists.mp hev
  have hnone : (getEventById db eventId).isNone = false := by
    rw [hge]
    rfl
  obtain ⟨dbA, extra1, hfold1, hgrow1, hdone1, hpres1, hstat1, hlen1⟩ :=
    confirmAtt_fold_run1 eventId body.attendance db [] hev hseat
  obtain ⟨out1, hmfold1, h1e, h1s, h1a⟩ :=
    confirmMailing_fold eventId body.mailing_list (dbA, [])
  have hevA : (getEventById dbA eventId).isSome = true := by
    rw [getEventById_congr hgrow1.1]
    exact hev
  have hev1 : (getEventById out1.1 eventId).isSome = true := by
    rw [getEventById_congr h1e]
    exact hevA
  have hnone1 : (getEventById out1.1 eventId).isNone = false := by
    obtain ⟨e1, hge1⟩ := Option.isSome_iff_exists.mp hev1
    rw [hge1]
    rfl
  have hdoneOut : ∀ x ∈ body.attendance, strTrim x.student_name ≠ "" →
      entryDone out1.1 eventId (strTrim x.student_name) := by
    intro x hx hxn
    exact entryDone_congr h1s h1a (hdone1 x hx hxn)
  obtain ⟨extra2, hfold2, hstat2, hlen2⟩ :=
    confirmAtt_fold_run2 eventId body.attendance out1.1 [] hev1 hdoneOut
  obtain ⟨out2, hmfold2, h2e, h2s, h2a⟩ :=
    confirmMailing_fold eventId body.mailing_list (out1.1, [])
  have heq1 : postConfirm db eventId body = .ok (out1.1,
      { attendance_created := (extra1.filter (fun r => r.status = "created")).length
        attendance_skipped := (extra1.filter (fun r => r.status = "skipped")).length
        attendance_results := extra1
        mailing_created := (out1.2.filter (fun r => r.status = "created")).length
        mailing_skipped := (out1.2.filter (fun r => r.status = "skipped")).length
        mailing_results := out1.2 }) := by
    unfold postConfirm
    rw [hnone]
    rw [hfold1]
    simp only [List.nil_append] at hmfold1 ⊢
    simp only [Except.mapError, Bind.bind, Except.bind, pure, Except.pure,
      Bool.false_eq_true, if_false, reduceIte]
    rw [hmfold1]
  have heq2 : postConfirm out1.1 eventId body = .ok (out2.1,
      { attendance_created := (extra2.filter (fun r => r.status = "created")).length
        attendance_skipped := (extra2.filter (fun r => r.status = "skipped")).length
        attendance_results := extra2
        mailing_created := (out2.2.filter (fun r => r.status = "created")).length
        mailing_skipped := (out2.2.filter (fun r => r.status = "skipped")).length
        mailing_results := out2.2 }) := by
    unfold postConfirm
    rw [hnone1]
    rw [hfold2]
    simp only [List.nil_append] at hmfold2 ⊢
    simp only [Except.mapError, Bind.bind, Except.bind, pure, Except.pure,
      Bool.false_eq_true, if_false, reduceIte]
    rw [hmfold2]
  obtain ⟨hsk0, hskall⟩ := skipped_counts extra2 hstat2
  refine ⟨out1.1, _, out2.1, _, heq1, heq2, ?_, ?_, ?_, ?_, ?_⟩
  · rw [h2a]
  · exact hsk0
  · exact hstat2
  · rw [hskall, hlen2, ← hlen1, ← count_created_skipped extra1 hstat1]
  · rw [count_created_skipped extra1 hstat1, hlen1]

/-- C2 witness. -/
theorem confirm_idempotent_witness :
    ∃ db1 r1 db2 r2,
      postConfirm db0 "EV000001" bodyBob = .ok (db1, r1) ∧
      postConfirm db1 "EV000001" bodyBob = .ok (db2, r2) ∧
      db2.attendance = db1.attendance ∧
      r2.attendance_created = 0 ∧
      (∀ r ∈ r2.attendance_results, r.status = "skipped") ∧
      r2.attendance_skipped = r1.attendance_created + r1.attendance_skipped ∧
      r1.attendance_created + r1.attendance_skipped =
        (bodyBob.attendance.filter hasName).length :=
  confirm_idempotent db0 "EV000001" bodyBob (by decide) (by decide)

/-- C2 counterexample to the unamended claim: with a seat outside the
CHECK domain ("X"), already the first confirm call errors (the store
rejects the insert and confirm does not catch it), so running the
operation twice errors as well. -/
theorem confirm_not_error_free_unrestricted :
    ((postConfirm dbBob "EV000001"
        { attendance := [{ student_name := "Bob", table_number := none, seat := some "X" }],
          mailing_list := [] }).bind
      (fun x => postConfirm x.1 "EV000001"
        { attendance := [{ student_name := "Bob", table_number := none, seat := some "X" }],
          mailing_list := [] })) =
    .error (.dbError (.check "attendance.seat")) := rfl

end BridgeAttendance

namespace BridgeAttendance

-- ===========================================================================
-- Support for the Normalizer claim
-- ===========================================================================


theorem getField_eq_getFieldD (v : Json) (k : String) (h : v ≠ Json.null) :
    v.getField k = .ok (v.getFieldD k) := by
  cases v with
  | null => exact absurd rfl h
  | _ => rfl


theorem validateAttendanceEntry_ok (e : Json) (h : attEntryOk e = true) :
    ∃ o, validateAttendanceEntry e = .ok o ∧ o.name = inputAttName e ∧
      ((∀ q : ℚ, e.getFieldD "confidence" ≠ some (Json.num q)) → o.confidence = 1/2) := by
  have hnn : e ≠ Json.null := by
    intro he
    rw [he] at h
    exact absurd h (by simp [attEntryOk])
  have hstr : (Json.nullish (e.getFieldD "name") (Json.str "")).isStr = true := by
    unfold attEntryOk at h
    cases e <;> first | exact h | exact absurd h (by simp)
  obtain ⟨s, hs⟩ : ∃ s, Json.nullish (e.getFieldD "name") (Json.str "") = Json.str s := by
    cases hm : Json.nullish (e.getFieldD "name") (Json.str "") with
    | str s => exact ⟨s, rfl⟩
    | _ =>
        rw [hm] at hstr
        exact absurd hstr (by simp [Json.isStr])
  refine ⟨⟨strTrim s, (match e.getFieldD "table_number" with
      | some (Json.num q) => some q
      | _ => none),
      normalizeSeat (Json.nullish (e.getFieldD "seat") Json.null),
      Json.nullish (e.getFieldD "is_checked") Json.null,
      (match e.getFieldD "confidence" with
      | some (Json.num q) => q
      | _ => 1/2)⟩, ?_, ?_, ?_⟩
  · unfold validateAttendanceEntry
    rw [getField_eq_getFieldD e "name" hnn, getField_eq_getFieldD e "table_number" hnn,
      getField_eq_getFieldD e "seat" hnn, getField_eq_getFieldD e "is_checked" hnn,
      getField_eq_getFieldD e "confidence" hnn]
    simp only [Bind.bind, Except.bind, hs, jsTrim, pure, Except.pure]
  · simp only [inputAttName, hs]
  · intro hq
    cases hc : e.getFieldD "confidence" with
    | none => rfl
    | some v =>
        cases v with
        | num q => exact absurd hc (hq q)
        | _ => rfl

theorem validateMailingEntry_ok (e : Json) (h : mlEntryOk e = true) :
    ∃ o, validateMailingEntry e = .ok o ∧ o.name = inputMlName e ∧ o.email = inputMlEmail e := by
  have hnn : e ≠ Json.null := by
    intro he
    rw [he] at h
    exact absurd h (by simp [mlEntryOk])
  have hparts : (Json.nullish (e.getFieldD "name") (Json.str "")).isStr = true ∧
      (Json.nullish (e.getFieldD "email") (Json.str "")).isStr = true := by
    unfold mlEntryOk at h
    cases e <;> simpa [Bool.and_eq_true] using h
  obtain ⟨s, hs⟩ : ∃ s, Json.nullish (e.getFieldD "name") (Json.str "") = Json.str s := by
    cases hm : Json.nullish (e.getFieldD "name") (Json.str "") with
    | str s => exact ⟨s, rfl⟩
    | _ =>
        have := hparts.1
        rw [hm] at this
        exact absurd this (by simp [Json.isStr])
  obtain ⟨t, ht⟩ : ∃ t, Json.nullish (e.getFieldD "email") (Json.str "") = Json.str t := by
    cases hm : Json.nullish (e.getFieldD "email") (Json.str "") with
    | str t => exact ⟨t, rfl⟩
    | _ =>
        have := hparts.2
        rw [hm] at this
        exact absurd this (by simp [Json.isStr])
  refine ⟨⟨strTrim s, strToLower (strTrim t), (match e.getFieldD "confidence" with
      | some (Json.num q) => q
      | _ => 1/2)⟩, ?_, ?_, ?_⟩
  · unfold validateMailingEntry
    rw [getField_eq_getFieldD e "name" hnn, getField_eq_getFieldD e "email" hnn,
      getField_eq_getFieldD e "confidence" hnn]
    simp only [Bind.bind, Except.bind, hs, ht, jsTrim, pure, Except.pure]
  · simp only [inputMlName, hs]
  · simp only [inputMlEmail, ht]

/-- A successful `mapM` of the attendance entry mapper over well-shaped
entries, with the element-wise facts needed downstream. -/
theorem mapM_attEntries (l : List Json) (h : l.all attEntryOk = true) :
    ∃ outs, l.mapM validateAttendanceEntry = .ok outs ∧
      List.Forall₂ (fun e o => o.name = inputAttName e ∧
        ((∀ q : ℚ, e.getFieldD "confidence" ≠ some (Json.num q)) → o.confidence = 1/2)) l outs := by
  induction l with
  | nil => exact ⟨[], rfl, List.Forall₂.nil⟩
  | cons e l ih =>
      rw [List.all_cons, Bool.and_eq_true] at h
      obtain ⟨o, ho, hon, hoc⟩ := validateAttendanceEntry_ok e h.1
      obtain ⟨outs, houts, hfa⟩ := ih h.2
      refine ⟨o :: outs, ?_, List.Forall₂.cons ⟨hon, hoc⟩ hfa⟩
      rw [List.mapM_cons, ho, houts]
      rfl

/-- A successful `mapM` of the mailing entry mapper over well-shaped
entries. -/
theorem mapM_mlEntries (l : List Json) (h : l.all mlEntryOk = true) :
    ∃ outs, l.mapM validateMailingEntry = .ok outs ∧
      List.Forall₂ (fun e o => o.name = inputMlName e ∧ o.email = inputMlEmail e) l outs := by
  induction l with
  | nil => exact ⟨[], rfl, List.Forall₂.nil⟩
  | cons e l ih =>
      rw [List.all_cons, Bool.and_eq_true] at h
      obtain ⟨o, ho, hon, hoe⟩ := validateMailingEntry_ok e h.1
      obtain ⟨outs, houts, hfa⟩ := ih h.2
      refine ⟨o :: outs, ?_, List.Forall₂.cons ⟨hon, hoe⟩ hfa⟩
      rw [List.mapM_cons, ho, houts]
      rfl

/-- A non-empty string has positive length. -/
theorem str_length_pos_iff (s : String) : (s.length > 0) ↔ s ≠ "" := by
  constructor
  · intro h he
    subst he
    exact absurd h (by decide)
  · intro h
    rcases Nat.eq_zero_or_pos s.length with h0 | h0
    · exfalso
      apply h
      cases s with
      | mk data =>
          cases data with
          | nil => rfl
          | cons c cs => exact absurd h0 (by simp [String.length])
    · exact h0

end BridgeAttendance

namespace BridgeAttendance

/-- Transfer of the normalizer's output filter to the input entries for
the attendance list: the kept outputs are in bijection with the inputs
whose trimmed name is non-empty, and each such input with a non-numeric
confidence yields a kept output with confidence 1/2. -/
theorem forall2_att_facts {l : List Json} {outs : List OcrAttendanceEntry}
    (h : List.Forall₂ (fun e o => o.name = inputAttName e ∧
      ((∀ q : ℚ, e.getFieldD "confidence" ≠ some (Json.num q)) → o.confidence = 1/2)) l outs) :
    (outs.filter (fun o => o.name.length > 0)).length =
      (l.filter (fun e => inputAttName e != "")).length ∧
    (∀ e ∈ l, inputAttName e ≠ "" →
      (∀ q : ℚ, e.getFieldD "confidence" ≠ some (Json.num q)) →
      ∃ o ∈ outs.filter (fun o => o.name.length > 0),
        o.name = inputAttName e ∧ o.confidence = 1/2) := by
  induction h with
  | nil => exact ⟨rfl, by simp⟩
  | @cons e o l outs h1 h2 ih =>
      obtain ⟨hname, hconf⟩ := h1
      have hpred : (decide (o.name.length > 0)) = (inputAttName e != "") := by
        rw [hname]
        by_cases hn : inputAttName e = ""
        · simp [hn]
        · simp [hn, str_length_pos_iff _ |>.mpr hn]
      constructor
      · rw [List.filter_cons, List.filter_cons, hpred]
        cases hd : (inputAttName e != "") <;> simp [ih.1]
      · intro e' he' hne hq
        rcases List.mem_cons.mp he' with he' | he'
        · subst he'
          refine ⟨o, ?_, hname, hconf hq⟩
          rw [List.mem_filter]
          exact ⟨List.mem_cons_self o outs, by rw [hpred]; simpa using hne⟩
        · obtain ⟨o', ho'mem, ho'p⟩ := ih.2 e' he' hne hq
          obtain ⟨ho'1, ho'2⟩ := List.mem_filter.mp ho'mem
          exact ⟨o', List.mem_filter.mpr ⟨List.mem_cons_of_mem o ho'1, ho'2⟩, ho'p⟩

/-- Transfer of the normalizer's output filter to the input entries for
the mailing list. -/
theorem forall2_ml_facts {l : List Json} {outs : List OcrMailingListEntry}
    (h : List.Forall₂ (fun e o => o.name = inputMlName e ∧ o.email = inputMlEmail e) l outs) :
    (outs.filter (fun o => o.name.length > 0 && o.email.length > 0)).length =
      (l.filter (fun e => inputMlName e != "" && inputMlEmail e != "")).length := by
  induction h with
  | nil => rfl
  | @cons e o l outs h1 h2 ih =>
      obtain ⟨hname, hemail⟩ := h1
      have hpred : (decide (o.name.length > 0) && decide (o.email.length > 0)) =
          (inputMlName e != "" && inputMlEmail e != "") := by
        rw [hname, hemail]
        by_cases hn : inputMlName e = "" <;> by_cases he : inputMlEmail e = ""
        · simp [hn, he]
        · simp [hn, he, str_length_pos_iff _ |>.mpr he]
        · simp [hn, he, str_length_pos_iff _ |>.mpr hn]
        · simp [hn, he, str_length_pos_iff _ |>.mpr hn, str_length_pos_iff _ |>.mpr he]
      rw [List.filter_cons, List.filter_cons]
      simp only [hpred]
      cases hd : (inputMlName e != "" && inputMlEmail e != "") <;> simp [ih]

end BridgeAttendance

namespace BridgeAttendance

/-- C1 (amended): `validateOcrResult` returns without throwing and its
result follows the canonical schema with the documented defaults —
form_type "blank" unless exactly "roster", qr_data null when absent,
per-entry confidence 1/2 when not numeric, overall confidence 1/2 when
not numeric, notes "" when absent, attendance entries with empty trimmed
name dropped, and mailing-list entries missing name or email after
trimming dropped — PROVIDED the input is well-shaped: not JSON null,
with `attendance`/`mailing_list` (after the `?? []` defaults) arrays of
non-null entries whose name (and email) fields default to strings.  On
other shapes the function throws (see the counterexample), so the
original unconditional claim fails. -/
theorem validateOcrResult_never_throws_wellShaped (raw : Json)
    (hws : wellShaped raw = true) :
    ∃ r, validateOcrResult raw = .ok r ∧
      (r.form_type = "blank" ∨ r.form_type = "roster") ∧
      (raw.getFieldD "form_type" ≠ some (Json.str "roster") → r.form_type = "blank") ∧
      (raw.getFieldD "form_type" = some (Json.str "roster") → r.form_type = "roster") ∧
      (raw.getFieldD "qr_data" = none → r.qr_data = Json.null) ∧
      ((∀ q : ℚ, raw.getFieldD "confidence" ≠ some (Json.num q)) → r.confidence = 1/2) ∧
      (raw.getFieldD "notes" = none → r.notes = Json.str "") ∧
      (∀ o ∈ r.attendance, o.name ≠ "") ∧
      (∀ o ∈ r.mailing_list, o.name ≠ "" ∧ o.email ≠ "") ∧
      (∀ l, Json.nullish (raw.getFieldD "attendance") (Json.arr []) = Json.arr l →
        r.attendance.length = (l.filter (fun e => inputAttName e != "")).length ∧
        (∀ e ∈ l, inputAttName e ≠ "" →
          (∀ q : ℚ, e.getFieldD "confidence" ≠ some (Json.num q)) →
          ∃ o ∈ r.attendance, o.name = inputAttName e ∧ o.confidence = 1/2)) ∧
      (∀ l, Json.nullish (raw.getFieldD "mailing_list") (Json.arr []) = Json.arr l →
        r.mailing_list.length =
          (l.filter (fun e => inputMlName e != "" && inputMlEmail e != "")).length) := by
  have hnn : raw ≠ Json.null := by
    intro h
    subst h
    exact absurd hws (by simp [wellShaped])
  have hws2 : arrAllOk (Json.nullish (raw.getFieldD "attendance") (Json.arr [])) attEntryOk = true ∧
      arrAllOk (Json.nullish (raw.getFieldD "mailing_list") (Json.arr [])) mlEntryOk = true := by
    unfold wellShaped at hws
    cases raw <;> simpa [Bool.and_eq_true] using hws
  obtain ⟨la, hla⟩ : ∃ la, Json.nullish (raw.getFieldD "attendance") (Json.arr []) = Json.arr la := by
    cases hm : Json.nullish (raw.getFieldD "attendance") (Json.arr []) with
    | arr l => exact ⟨l, rfl⟩
    | _ =>
        have := hws2.1
        rw [hm] at this
        exact absurd this (by simp [arrAllOk])
  obtain ⟨lm, hlm⟩ : ∃ lm, Json.nullish (raw.getFieldD "mailing_list") (Json.arr []) = Json.arr lm := by
    cases hm : Json.nullish (raw.getFieldD "mailing_list") (Json.arr []) with
    | arr l => exact ⟨l, rfl⟩
    | _ =>
        have := hws2.2
        rw [hm] at this
        exact absurd this (by simp [arrAllOk])
  have hallA : la.all attEntryOk = true := by
    have := hws2.1
    rw [hla] at this
    exact this
  have hallM : lm.all mlEntryOk = true := by
    have := hws2.2
    rw [hlm] at this
    exact this
  obtain ⟨outsA, houtsA, hfaA⟩ := mapM_attEntries la hallA
  obtain ⟨outsM, houtsM, hfaM⟩ := mapM_mlEntries lm hallM
  refine ⟨⟨Json.nullish (raw.getFieldD "qr_data") Json.null,
      (match raw.getFieldD "form_type" with
        | some (Json.str s) => if s = "roster" then "roster" else "blank"
        | _ => "blank"),
      outsA.filter (fun e => e.name.length > 0),
      outsM.filter (fun e => e.name.length > 0 && e.email.length > 0),
      (match raw.getFieldD "confidence" with
        | some (Json.num q) => q
        | _ => 1/2),
      Json.nullish (raw.getFieldD "notes") (Json.str "")⟩,
    ?_, ?_, ?_, ?_, ?_, ?_, ?_, ?_, ?_, ?_, ?_⟩
  · unfold validateOcrResult
    rw [getField_eq_getFieldD raw "qr_data" hnn, getField_eq_getFieldD raw "form_type" hnn,
      getField_eq_getFieldD raw "attendance" hnn, getField_eq_getFieldD raw "mailing_list" hnn,
      getField_eq_getFieldD raw "confidence" hnn, getField_eq_getFieldD raw "notes" hnn]
    simp only [Bind.bind, Except.bind]
    rw [hla, hlm]
    simp only [jsMapArray, Bind.bind, Except.bind, houtsA, houtsM, pure, Except.pure]
  · cases hf : raw.getFieldD "form_type" with
    | none => simp
    | some v =>
        cases v with
        | str s =>
            by_cases hs : s = "roster"
            · simp [hs]
            · simp [hs]
        | _ => simp
  · intro hne
    cases hf : raw.getFieldD "form_type" with
    | none => rfl
    | some v =>
        cases v with
        | str s =>
            have hs : s ≠ "roster" := by
              intro hcontra
              subst hcontra
              exact hne hf
            simp [hs]
        | _ => rfl
  · intro hroster
    rw [hroster]
    simp
  · intro h
    rw [h]
    rfl
  · intro hq
    cases hc : raw.getFieldD "confidence" with
    | none => rfl
    | some v =>
        cases v with
        | num q => exact absurd hc (hq q)
        | _ => rfl
  · intro h
    rw [h]
    rfl
  · intro o ho
    have := (List.mem_filter.mp ho).2
    exact (str_length_pos_iff o.name).mp (by simpa using this)
  · intro o ho
    have := (List.mem_filter.mp ho).2
    simp only [Bool.and_eq_true, decide_eq_true_eq] at this
    exact ⟨(str_length_pos_iff o.name).mp this.1, (str_length_pos_iff o.email).mp this.2⟩
  · intro l hl
    rw [hla] at hl
    cases hl
    exact ⟨(forall2_att_facts hfaA).1, (forall2_att_facts hfaA).2⟩
  · intro l hl
    rw [hlm] at hl
    cases hl
    exact forall2_ml_facts hfaM

/-- C1 witness. -/
theorem validateOcrResult_never_throws_wellShaped_witness :
    ∃ r, validateOcrResult (Json.obj []) = .ok r ∧
      (r.form_type = "blank" ∨ r.form_type = "roster") ∧
      ((Json.obj []).getFieldD "form_type" ≠ some (Json.str "roster") → r.form_type = "blank") ∧
      ((Json.obj []).getFieldD "form_type" = some (Json.str "roster") → r.form_type = "roster") ∧
      ((Json.obj []).getFieldD "qr_data" = none → r.qr_data = Json.null) ∧
      ((∀ q : ℚ, (Json.obj []).getFieldD "confidence" ≠ some (Json.num q)) → r.confidence = 1/2) ∧
      ((Json.obj []).getFieldD "notes" = none → r.notes = Json.str "") ∧
      (∀ o ∈ r.attendance, o.name ≠ "") ∧
      (∀ o ∈ r.mailing_list, o.name ≠ "" ∧ o.email ≠ "") ∧
      (∀ l, Json.nullish ((Json.obj []).getFieldD "attendance") (Json.arr []) = Json.arr l →
        r.attendance.length = (l.filter (fun e => inputAttName e != "")).length ∧
        (∀ e ∈ l, inputAttName e ≠ "" →
          (∀ q : ℚ, e.getFieldD "confidence" ≠ some (Json.num q)) →
          ∃ o ∈ r.attendance, o.name = inputAttName e ∧ o.confidence = 1/2)) ∧
      (∀ l, Json.nullish ((Json.obj []).getFieldD "mailing_list") (Json.arr []) = Json.arr l →
        r.mailing_list.length =
          (l.filter (fun e => inputMlName e != "" && inputMlEmail e != "")).length) :=
  validateOcrResult_never_throws_wellShaped (Json.obj []) (by decide)

/-- C1 counterexample to the unamended claim: the Normalizer throws a
TypeError when `attendance` is a number (`.map` on a non-array), when an
entry's name is a number (`.trim` on a non-string), and when the parsed
value is null (property access on null) — so it does not return
normally for every parsed JSON value. -/
theorem validateOcrResult_throws_on_mistyped :
    exceptOk (validateOcrResult (Json.obj [("attendance", Json.num 5)])) = false ∧
    exceptOk (validateOcrResult (Json.obj [("attendance",
      Json.arr [Json.obj [("name", Json.num 7)]])])) = false ∧
    exceptOk (validateOcrResult Json.null) = false :=
  ⟨rfl, rfl, rfl⟩

end BridgeAttendance
